import Mathlib

/- Shallow embedding of libRocket's per-property keyframe animation engine
   (Source/Core/ElementAnimation.cpp and ElementAnimation.h).

   Modelling conventions:
   - C++ `float` values are modelled as exact rationals (ℚ), except inside the
     colour linear-space converter, where the source computes square roots; there
     the channels live in ℝ.
   - The C++ methods mutate `this`; here they are functions returning the updated
     state explicitly.
   - `Log::Message` warning calls are modelled as a natural-number count of
     warnings emitted, returned alongside the value.
   - Types of this repository that live outside the given sources (the tagged
     Variant box, Transform primitives, Tween, Element, the matrix decomposition)
     are modelled from the spec; each such definition is marked
     `Modelled from the spec:` in its doc comment. -/

set_option autoImplicit false

namespace RocketCore

/-- Rocket's Math::Clamp on rational values: clamps v into the range lo..hi. -/
def Math.Clamp (v lo hi : ℚ) : ℚ :=
  if v < lo then lo else if v > hi then hi else v

/-- Rocket's Math::Clamp on real values (used by the colour converter). -/
noncomputable def Math.ClampR (v lo hi : ℝ) : ℝ :=
  if v < lo then lo else if v > hi then hi else v

/-- Rocket's Colourb: a colour with four byte channels. -/
structure Colourb where
  red : Fin 256
  green : Fin 256
  blue : Fin 256
  alpha : Fin 256
deriving DecidableEq

/-- Rocket's Colourf: a colour with four float channels, modelled over ℝ. -/
structure Colourf where
  red : ℝ
  green : ℝ
  blue : ℝ
  alpha : ℝ

/-- Componentwise scaling of a Colourf by a scalar (the source's c * s). -/
noncomputable def Colourf.scale (c : Colourf) (s : ℝ) : Colourf :=
  ⟨c.red * s, c.green * s, c.blue * s, c.alpha * s⟩

/-- Componentwise sum of two Colourf values (the source's c0 + c1). -/
noncomputable def Colourf.add (c0 c1 : Colourf) : Colourf :=
  ⟨c0.red + c1.red, c0.green + c1.green, c0.blue + c1.blue, c0.alpha + c1.alpha⟩

/-- The C-style cast of a (previously clamped, non-negative) float to a byte:
    truncation toward zero, reduced mod 256 as machine bytes are. -/
noncomputable def byteOfFloat (x : ℝ) : Fin 256 :=
  ⟨(⌊x⌋).toNat % 256, Nat.mod_lt _ (by norm_num)⟩

/-- ColourToLinearSpace from the source: approximate inverse sRGB; each RGB
    channel x maps to sqrt(x/255), alpha maps to alpha/255. -/
noncomputable def ColourToLinearSpace (c : Colourb) : Colourf :=
  { red := Real.sqrt ((c.red.val : ℝ) / 255)
    green := Real.sqrt ((c.green.val : ℝ) / 255)
    blue := Real.sqrt ((c.blue.val : ℝ) / 255)
    alpha := (c.alpha.val : ℝ) / 255 }

/-- ColourFromLinearSpace from the source: each RGB channel is squared,
    rescaled by 255, clamped to 0..255 and cast to a byte; alpha is rescaled
    by 255, clamped and cast. -/
noncomputable def ColourFromLinearSpace (c : Colourf) : Colourb :=
  { red := byteOfFloat (Math.ClampR (c.red * c.red * 255) 0 255)
    green := byteOfFloat (Math.ClampR (c.green * c.green * 255) 0 255)
    blue := byteOfFloat (Math.ClampR (c.blue * c.blue * 255) 0 255)
    alpha := byteOfFloat (Math.ClampR (c.alpha * 255) 0 255) }

/-- For a channel value n ≤ 255, squaring its linear-space image and rescaling
    returns exactly the original channel value. -/
theorem linear_roundtrip_channel (n : Fin 256) :
    byteOfFloat (Math.ClampR (Real.sqrt ((n.val : ℝ) / 255) *
      Real.sqrt ((n.val : ℝ) / 255) * 255) 0 255) = n := by
  have hnn : (0 : ℝ) ≤ (n.val : ℝ) / 255 := by positivity
  have hsq : Real.sqrt ((n.val : ℝ) / 255) * Real.sqrt ((n.val : ℝ) / 255)
      = (n.val : ℝ) / 255 := Real.mul_self_sqrt hnn
  have hval : Real.sqrt ((n.val : ℝ) / 255) * Real.sqrt ((n.val : ℝ) / 255) * 255
      = (n.val : ℝ) := by rw [hsq]; field_simp
  rw [hval]
  have hle : (n.val : ℝ) ≤ 255 := by
    have := n.isLt
    exact_mod_cast Nat.le_of_lt_succ this
  have h0 : ¬ ((n.val : ℝ) < 0) := by push_neg; positivity
  have h1 : ¬ ((n.val : ℝ) > 255) := by push_neg; exact hle
  unfold Math.ClampR byteOfFloat
  rw [if_neg h0, if_neg h1]
  have hfl : ⌊(n.val : ℝ)⌋ = (n.val : ℤ) := Int.floor_natCast n.val
  apply Fin.ext
  simp [hfl, Nat.mod_eq_of_lt n.isLt]

/-- For an alpha channel value n ≤ 255, dividing by 255 and rescaling by 255
    returns exactly the original channel value. -/
theorem linear_roundtrip_alpha (n : Fin 256) :
    byteOfFloat (Math.ClampR ((n.val : ℝ) / 255 * 255) 0 255) = n := by
  have hval : (n.val : ℝ) / 255 * 255 = (n.val : ℝ) := by field_simp
  rw [hval]
  have hle : (n.val : ℝ) ≤ 255 := by
    have := n.isLt
    exact_mod_cast Nat.le_of_lt_succ this
  have h0 : ¬ ((n.val : ℝ) < 0) := by push_neg; positivity
  have h1 : ¬ ((n.val : ℝ) > 255) := by push_neg; exact hle
  unfold Math.ClampR byteOfFloat
  rw [if_neg h0, if_neg h1]
  have hfl : ⌊(n.val : ℝ)⌋ = (n.val : ℤ) := Int.floor_natCast n.val
  apply Fin.ext
  simp [hfl, Nat.mod_eq_of_lt n.isLt]

/-- C5: for every colour c with all four byte channels in 0..255, the
    round trip ColourFromLinearSpace (ColourToLinearSpace c) equals c exactly
    (hence in particular to within plus or minus one on every channel), where
    ColourToLinearSpace maps each RGB channel x to sqrt(x/255) and alpha to
    alpha/255, and ColourFromLinearSpace squares each RGB channel, rescales by
    255 and clamps to the valid byte range. -/
theorem claim_C5 (c : Colourb) :
    ColourFromLinearSpace (ColourToLinearSpace c) = c ∧
    (((ColourFromLinearSpace (ColourToLinearSpace c)).red.val : ℤ) - (c.red.val : ℤ)).natAbs ≤ 1 ∧
    (((ColourFromLinearSpace (ColourToLinearSpace c)).green.val : ℤ) - (c.green.val : ℤ)).natAbs ≤ 1 ∧
    (((ColourFromLinearSpace (ColourToLinearSpace c)).blue.val : ℤ) - (c.blue.val : ℤ)).natAbs ≤ 1 ∧
    (((ColourFromLinearSpace (ColourToLinearSpace c)).alpha.val : ℤ) - (c.alpha.val : ℤ)).natAbs ≤ 1 := by
  have heq : ColourFromLinearSpace (ColourToLinearSpace c) = c := by
    unfold ColourFromLinearSpace ColourToLinearSpace
    cases c with
    | mk r g b a =>
      simp only [Colourb.mk.injEq]
      exact ⟨linear_roundtrip_channel r, linear_roundtrip_channel g,
             linear_roundtrip_channel b, linear_roundtrip_alpha a⟩
  refine ⟨heq, ?_, ?_, ?_, ?_⟩ <;> rw [heq] <;> simp

/-- Modelled from the spec: the tagged kinds of transform primitives
    ("TranslateX/Y/Z, Scale, Rotate, Skew, Matrix3D, and a decomposed composite
    kind"; single-axis kinds widen to a generic three-axis form). -/
inductive PrimitiveKind where
  | TranslateX
  | TranslateY
  | TranslateZ
  | Translate3D
  | Scale
  | Scale3D
  | Rotate
  | Skew
  | Matrix3D
  | DecomposedMatrix4
deriving DecidableEq

/-- Modelled from the spec: a transform primitive is a tagged variant carrying
    its own numeric payload; the payload is kept as a list of numbers. -/
structure Primitive where
  kind : PrimitiveKind
  payload : List ℚ
deriving DecidableEq

/-- Modelled from the spec: the generic (widened) form of each primitive kind;
    single-axis translates widen to Translate3D and scales widen to Scale3D,
    the other kinds are their own generic form. -/
def genericKind : PrimitiveKind → PrimitiveKind
  | .TranslateX => .Translate3D
  | .TranslateY => .Translate3D
  | .TranslateZ => .Translate3D
  | .Translate3D => .Translate3D
  | .Scale => .Scale3D
  | .Scale3D => .Scale3D
  | k => k

/-- Modelled from the spec: the payload of the identity (no-op) instance of a
    primitive kind — translate by zero, scale by one, rotate by zero, and so on. -/
def identityPayload : PrimitiveKind → List ℚ
  | .TranslateX => [0]
  | .TranslateY => [0]
  | .TranslateZ => [0]
  | .Translate3D => [0, 0, 0]
  | .Scale => [1]
  | .Scale3D => [1, 1, 1]
  | .Rotate => [0]
  | .Skew => [0, 0]
  | .Matrix3D => [1, 0, 0, 0, 0, 1, 0, 0, 0, 0, 1, 0, 0, 0, 0, 1]
  | .DecomposedMatrix4 => [0, 0, 0, 1, 0, 0, 0, 1, 1, 1, 0, 0, 0]

/-- Modelled from the spec: widening a primitive's payload to its generic kind
    (a single-axis component placed in the corresponding slot of the generic
    payload). -/
def widenPayload : PrimitiveKind → List ℚ → List ℚ
  | .TranslateX, l => l ++ [0, 0]
  | .TranslateY, l => 0 :: l ++ [0]
  | .TranslateZ, l => 0 :: 0 :: l
  | .Scale, l => l ++ l ++ l
  | _, l => l

/-- Primitive::SetIdentity from TransformPrimitive. Modelled from the spec:
    replaces the payload with the identity payload of the primitive's kind. -/
def Primitive.SetIdentitySpec (p : Primitive) : Primitive :=
  { kind := p.kind, payload := identityPayload p.kind }

/-- Primitive::TryConvertToMatchingGenericType from TransformPrimitive.
    Modelled from the spec: succeeds when both primitives widen to the same
    generic kind, in which case both are converted to that generic form;
    fails (returning none, with no change) otherwise. -/
def tryConvertToMatchingGenericType (p0 p1 : Primitive) : Option (Primitive × Primitive) :=
  if genericKind p0.kind = genericKind p1.kind then
    some (⟨genericKind p0.kind, widenPayload p0.kind p0.payload⟩,
          ⟨genericKind p1.kind, widenPayload p1.kind p1.payload⟩)
  else none

/-- Primitive::InterpolateWith from TransformPrimitive. Modelled from the
    spec: interpolation succeeds only for primitives of the same kind, blending
    the payloads componentwise; mismatched kinds report failure. -/
def Primitive.InterpolateWithSpec (p0 p1 : Primitive) (alpha : ℚ) : Option Primitive :=
  if p0.kind = p1.kind then
    some ⟨p0.kind, List.zipWith (fun a b => (1 - alpha) * a + alpha * b) p0.payload p1.payload⟩
  else none

/-- The tags of the Variant value box that this source distinguishes
    (FLOAT, COLOURB, TRANSFORMREF) together with a coercible numeric tag (INT)
    and the non-coercible empty tag (NONE) for the remaining kinds. -/
inductive VariantType where
  | NONE
  | FLOAT
  | COLOURB
  | TRANSFORMREF
  | INT
deriving DecidableEq

/-- Modelled from the spec: the tagged union of values a keyframe can hold —
    a scalar, a colour, a transform primitive sequence (the TransformRef's
    primitive list), a coercible integer, or nothing. -/
inductive Variant where
  | NONE
  | FLOAT (f : ℚ)
  | COLOURB (c : Colourb)
  | TRANSFORMREF (prims : List Primitive)
  | INT (i : ℤ)
deriving DecidableEq

/-- Variant::GetType: the tag of the value held. -/
def Variant.GetType : Variant → VariantType
  | .NONE => .NONE
  | .FLOAT _ => .FLOAT
  | .COLOURB _ => .COLOURB
  | .TRANSFORMREF _ => .TRANSFORMREF
  | .INT _ => .INT

/-- The primitive list behind a TRANSFORMREF variant (empty for other tags). -/
def Variant.getTransform : Variant → List Primitive
  | .TRANSFORMREF prims => prims
  | _ => []

/-- The units a Property can carry, as far as this source distinguishes them:
    TRANSFORM is tested explicitly; the others only need to be comparable. -/
inductive PropertyUnit where
  | UNKNOWN
  | NUMBER
  | COLOUR
  | TRANSFORM
deriving DecidableEq

/-- Rocket's Property as consumed here: a value with its unit and
    specificity. -/
structure Property where
  value : Variant
  unit : PropertyUnit
  specificity : ℤ
deriving DecidableEq

/-- The default-constructed (empty) Property returned on no-op updates. -/
def emptyProperty : Property :=
  { value := Variant.NONE, unit := PropertyUnit.UNKNOWN, specificity := -1 }

/-- Modelled from the spec: a tween (easing) function mapping a raw blend
    factor to an eased one. -/
def Tween : Type := ℚ → ℚ

/-- Modelled from the spec: the default tween used for the synthesized initial
    key is linear (the identity easing). -/
def defaultTween : Tween := fun x => x

/-- AnimationKey from the header: local time, value and the tween applied when
    interpolating into this key. -/
structure AnimationKey where
  time : ℚ
  value : Variant
  tween : Tween

/-- Junk key used as the default for list indexing (never reached when the key
    list is non-empty and indices are in bounds). -/
def defaultKey : AnimationKey :=
  { time := 0, value := Variant.NONE, tween := defaultTween }

/-- Modelled from the spec: the element capability interface this core
    consumes — resolution of unit-relative primitive components, and the
    flatten-to-matrix-and-decompose operation, both of which may fail. -/
structure Element where
  resolveUnits : Primitive → Option Primitive
  decompose : List Primitive → Option Primitive

/-- The pairwise transform interpolation loop inside InterpolateValues:
    builds the new primitive list, failing (none) as soon as
    Primitive::InterpolateWith reports a type mismatch. -/
def interpolatePrimitives : List Primitive → List Primitive → ℚ → Option (List Primitive)
  | [], _, _ => some []
  | p0 :: ps0, [], _ => some (p0 :: ps0)
  | p0 :: ps0, p1 :: ps1, alpha =>
    match p0.InterpolateWithSpec p1 alpha with
    | none => none
    | some p =>
      match interpolatePrimitives ps0 ps1 alpha with
      | none => none
      | some ps => some (p :: ps)

/-- InterpolateValues from the source: interpolates two Variant endpoints at a
    blend factor. Mismatched types return the first value with a warning;
    floats blend linearly; colours blend in linear space; transforms blend
    primitive by primitive, returning the first value with a warning when the
    sizes or primitive types mismatch; all other types return the first value
    with a warning. The second component counts warnings logged. -/
noncomputable def InterpolateValues (v0 v1 : Variant) (alpha : ℚ) : Variant × ℕ :=
  if v0.GetType ≠ v1.GetType then (v0, 1)
  else
    match v0, v1 with
    | .FLOAT f0, .FLOAT f1 => (.FLOAT ((1 - alpha) * f0 + alpha * f1), 0)
    | .COLOURB c0, .COLOURB c1 =>
      (.COLOURB (ColourFromLinearSpace
        (Colourf.add ((ColourToLinearSpace c0).scale (1 - (alpha : ℝ)))
                     ((ColourToLinearSpace c1).scale (alpha : ℝ)))), 0)
    | .TRANSFORMREF p0, .TRANSFORMREF p1 =>
      if p0.length ≠ p1.length then (.TRANSFORMREF p0, 1)
      else
        match interpolatePrimitives p0 p1 alpha with
        | none => (.TRANSFORMREF p0, 1)
        | some ps => (.TRANSFORMREF ps, 0)
    | v0, _ => (v0, 1)

/-- CombineAndDecompose from the source, through the element capability.
    Modelled from the spec where Matrix4f, ResolveTransform and Decompose are
    outside the given sources: the primitive sequence is flattened to a matrix
    and decomposed into a single decomposed primitive, which can fail on a
    degenerate matrix. -/
def CombineAndDecompose (t : List Primitive) (e : Element) : Option (List Primitive) :=
  match e.decompose t with
  | none => none
  | some d => some [d]

/-- The result codes of PrepareTransformPair from the source. -/
inductive PrepareTransformResult where
  | Unchanged
  | ChangedT0
  | ChangedT1
  | ChangedT0andT1
  | Invalid
deriving DecidableEq

/-- Combines the two changed flags of the equal-length walk into the
    source's bitwise-or result code. -/
def flagsToResult (c0 c1 : Bool) : PrepareTransformResult :=
  match c0, c1 with
  | false, false => .Unchanged
  | true, false => .ChangedT0
  | false, true => .ChangedT1
  | true, true => .ChangedT0andT1

/-- The equal-length walk of PrepareTransformPair: position by position, keep
    exact kind matches, otherwise try the generic conversion; on the first
    position that cannot match, stop (the remaining positions stay unchanged,
    conversions already made are kept, as the source mutates in place).
    Returns (all positions matched, changed t0, changed t1, t0 after, t1 after). -/
def matchEqualLength : List Primitive → List Primitive → Bool × Bool × Bool × List Primitive × List Primitive
  | [], l1 => (true, false, false, [], l1)
  | l0, [] => (true, false, false, l0, [])
  | p0 :: ps0, p1 :: ps1 =>
    if p0.kind = p1.kind then
      let r := matchEqualLength ps0 ps1
      (r.1, r.2.1, r.2.2.1, p0 :: r.2.2.2.1, p1 :: r.2.2.2.2)
    else
      match tryConvertToMatchingGenericType p0 p1 with
      | none => (false, false, false, p0 :: ps0, p1 :: ps1)
      | some (q0, q1) =>
        let r := matchEqualLength ps0 ps1
        (r.1, r.2.1 || decide (q0.kind ≠ p0.kind), r.2.2.1 || decide (q1.kind ≠ p1.kind),
         q0 :: r.2.2.2.1, q1 :: r.2.2.2.2)

/-- The inner scan of the unequal-length branch: advance through the big list
    looking for the first primitive matching s exactly or after generic
    conversion. Returns the skipped (unchanged) prefix, the converted small
    primitive, the converted matched big primitive, the rest of big, the
    matched index, and whether the big primitive's kind changed. -/
def findMatchInBig (s : Primitive) : List Primitive → ℕ →
    Option (List Primitive × Primitive × Primitive × List Primitive × ℕ × Bool)
  | [], _ => none
  | b :: bs, i =>
    if s.kind = b.kind then some ([], s, b, bs, i, false)
    else
      match tryConvertToMatchingGenericType s b with
      | some (s', b') => some ([], s', b', bs, i, decide (b'.kind ≠ b.kind))
      | none =>
        match findMatchInBig s bs (i + 1) with
        | none => none
        | some (pre, s', b', rest, j, cb) => some (b :: pre, s', b', rest, j, cb)

/-- The outer scan of the unequal-length branch of PrepareTransformPair:
    aligns each small primitive with the next compatible big primitive, never
    going backward in big. Returns (success, small after conversions, big after
    conversions, matched indices into big, whether big changed). On failure the
    partially converted lists are kept, as the source mutates in place. -/
def greedyAlign : List Primitive → List Primitive → ℕ →
    Bool × List Primitive × List Primitive × List ℕ × Bool
  | [], big, _ => (true, [], big, [], false)
  | s :: ss, big, iBig =>
    match findMatchInBig s big iBig with
    | none => (false, s :: ss, big, [], false)
    | some (pre, s', b', rest, j, cb) =>
      let r := greedyAlign ss rest (j + 1)
      (r.1, s' :: r.2.1, pre ++ b' :: r.2.2.1, j :: r.2.2.2.1, cb || r.2.2.2.2)

/-- The insertion loop of PrepareTransformPair, in its net effect: walk the
    big list with a running index; positions whose index heads the matched-index
    list receive the corresponding aligned small primitive, all other positions
    receive the identity instance of the big primitive at that position. -/
def insertIdentities : List Primitive → ℕ → List ℕ → List Primitive → List Primitive
  | [], _, _, _ => []
  | b :: bs, i, [], smalls => b.SetIdentitySpec :: insertIdentities bs (i + 1) [] smalls
  | b :: bs, i, j :: js, smalls =>
    if i = j then
      match smalls with
      | [] => b.SetIdentitySpec :: insertIdentities bs (i + 1) js []
      | s :: ss => s :: insertIdentities bs (i + 1) js ss
    else b.SetIdentitySpec :: insertIdentities bs (i + 1) (j :: js) smalls

/-- The decomposition fallback at the end of PrepareTransformPair: decompose
    t0, then t1; a failure of either yields Invalid (keeping the mutations made
    so far, as the source mutates in place). -/
def pairFallback (t0 t1 : List Primitive) (e : Element) :
    PrepareTransformResult × List Primitive × List Primitive :=
  match CombineAndDecompose t0 e with
  | none => (.Invalid, t0, t1)
  | some d0 =>
    match CombineAndDecompose t1 e with
    | none => (.Invalid, d0, t1)
    | some d1 => (.ChangedT0andT1, d0, d1)

/-- PrepareTransformPair from the source: make the two primitive sequences
    match exactly in number and types of primitives — first the equal-length
    exact/generic walk, then the unequal-length greedy alignment with identity
    insertion, and finally the full decomposition fallback. -/
def PrepareTransformPair (t0 t1 : List Primitive) (e : Element) :
    PrepareTransformResult × List Primitive × List Primitive :=
  if t0.length = t1.length then
    let r := matchEqualLength t0 t1
    if r.1 then (flagsToResult r.2.1 r.2.2.1, r.2.2.2.1, r.2.2.2.2)
    else pairFallback r.2.2.2.1 r.2.2.2.2 e
  else
    let prims0smallest := t0.length < t1.length
    let small := if prims0smallest then t0 else t1
    let big := if prims0smallest then t1 else t0
    let r := greedyAlign small big 0
    if r.1 then
      let newSmall := insertIdentities r.2.2.1 0 r.2.2.2.1 r.2.1
      let res := if r.2.2.2.2 then PrepareTransformResult.ChangedT0andT1
                 else if prims0smallest then PrepareTransformResult.ChangedT0
                 else PrepareTransformResult.ChangedT1
      if prims0smallest then (res, newSmall, r.2.2.1) else (res, r.2.2.1, newSmall)
    else
      if prims0smallest then pairFallback r.2.1 r.2.2.1 e
      else pairFallback r.2.2.1 r.2.1 e

/-- The loop of PrepareTransforms from the source: for each pair of adjacent
    keys starting at start_index, reconcile the pair; on Invalid return false
    at once; if the pair changed its first transform and the index is above 1,
    step backward, otherwise step forward; the pass counter is incremented
    after every completed pass and the loop stops when it reaches
    max_iterations. Returns (result, keys after mutation, final counter). -/
def prepareTransformsLoop (e : Element) (maxIterations : ℤ) :
    List AnimationKey → ℕ → ℤ → Bool × List AnimationKey × ℤ := fun keys i count =>
  if h : i < keys.length ∧ count < maxIterations then
    let k0 := keys.getD (i - 1) defaultKey
    let k1 := keys.getD i defaultKey
    let r := PrepareTransformPair k0.value.getTransform k1.value.getTransform e
    let keys' := (keys.set (i - 1) { k0 with value := .TRANSFORMREF r.2.1 }).set i
      { k1 with value := .TRANSFORMREF r.2.2 }
    if r.1 = .Invalid then (false, keys', count)
    else
      let changedT0 := r.1 = .ChangedT0 ∨ r.1 = .ChangedT0andT1
      let i' := if changedT0 ∧ i > 1 then i - 1 else i + 1
      prepareTransformsLoop e maxIterations keys' i' (count + 1)
  else (decide (count < maxIterations), keys, count)
termination_by _ _ count => (maxIterations - count).toNat
decreasing_by
  omega

/-- PrepareTransforms from the source: reconcile every adjacent pair of keys
    from start_index (clamped up to 1), with the pass counter starting at -1
    and bounded by 3 times the number of keys. -/
def PrepareTransforms (keys : List AnimationKey) (e : Element) (startIndex : ℤ) :
    Bool × List AnimationKey :=
  let maxIterations : ℤ := 3 * keys.length
  let s : ℕ := if startIndex < 1 then 1 else startIndex.toNat
  let r := prepareTransformsLoop e maxIterations keys s (-1)
  (r.1, r.2.1)

/-- TryMakeUnitValid from the source: FLOAT, COLOURB and TRANSFORMREF values
    pass through; other types are converted to float when possible (INT), and
    report failure otherwise (NONE). -/
def TryMakeUnitValid (v : Variant) : Bool × Variant :=
  match v with
  | .FLOAT _ => (true, v)
  | .COLOURB _ => (true, v)
  | .TRANSFORMREF _ => (true, v)
  | .INT i => (true, .FLOAT (i : ℚ))
  | .NONE => (false, v)

/-- ElementAnimation from the header: the keyframe timeline with its playback
    state. -/
structure ElementAnimation where
  property_name : String
  property_unit : PropertyUnit
  property_specificity : ℤ
  duration : ℚ
  num_iterations : ℤ
  alternate_direction : Bool
  keys : List AnimationKey
  last_update_world_time : ℚ
  time_since_iteration_start : ℚ
  current_iteration : ℤ
  reverse_direction : Bool
  animation_complete : Bool
  valid : Bool

/-- ElementAnimation::IsComplete from the header: the completed flag. -/
def ElementAnimation.IsComplete (a : ElementAnimation) : Bool :=
  a.animation_complete

/-- The ElementAnimation constructor from the source: seeds one key at local
    time 0 holding the current value (coerced by TryMakeUnitValid, which also
    decides validity), with the default tween. -/
def ElementAnimation.make (property_name : String) (current_value : Property)
    (start_world_time duration : ℚ) (num_iterations : ℤ) (alternate_direction : Bool) :
    ElementAnimation :=
  let r := TryMakeUnitValid current_value.value
  { property_name := property_name
    property_unit := current_value.unit
    property_specificity := current_value.specificity
    duration := duration
    num_iterations := num_iterations
    alternate_direction := alternate_direction
    keys := [{ time := 0, value := r.2, tween := defaultTween }]
    last_update_world_time := start_world_time
    time_since_iteration_start := 0
    current_iteration := 0
    reverse_direction := false
    animation_complete := false
    valid := r.1 }

/-- The unit-resolution loop inside AddKey: resolve every primitive of the new
    transform value against the element; primitives that fail stay unchanged
    and make the whole step report failure, while the others are still
    resolved (the source keeps iterating). -/
def resolveAllUnits (e : Element) : List Primitive → Bool × List Primitive
  | [] => (true, [])
  | p :: ps =>
    let r := resolveAllUnits e ps
    match e.resolveUnits p with
    | some p' => (r.1, p' :: r.2)
    | none => (false, p :: r.2)

/-- ElementAnimation::AddKey from the source: reject on unit mismatch or an
    invalid timeline; append the key; coerce its value; for transforms resolve
    units and reconcile against the predecessor chain; on any failure pop the
    appended key (keeping whatever in-place mutations reconciliation already
    made to the earlier keys) and report failure. -/
def ElementAnimation.AddKey (a : ElementAnimation) (time : ℚ) (property : Property)
    (element : Element) (tween : Tween) : Bool × ElementAnimation :=
  if property.unit ≠ a.property_unit ∨ a.valid = false then (false, a)
  else
    let rCoerce := TryMakeUnitValid property.value
    if rCoerce.1 = false then (false, a)
    else if property.unit = PropertyUnit.TRANSFORM then
      let rUnits := resolveAllUnits element rCoerce.2.getTransform
      if rUnits.1 = false then (false, a)
      else
        let keys' := a.keys ++ [{ time := time, value := .TRANSFORMREF rUnits.2, tween := tween }]
        let rPrep := PrepareTransforms keys' element ((keys'.length : ℤ) - 1)
        if rPrep.1 = false then (false, { a with keys := rPrep.2.dropLast })
        else (true, { a with keys := rPrep.2 })
    else
      (true, { a with keys := a.keys ++ [{ time := time, value := rCoerce.2, tween := tween }] })

/-- The bracket scan of UpdateAndGetProperty: the index of the first key whose
    time is at least t. -/
def findFirstGE (t : ℚ) : List AnimationKey → Option ℕ
  | [] => none
  | k :: ks =>
    if t ≤ k.time then some 0
    else
      match findFirstGE t ks with
      | none => none
      | some i => some (i + 1)

/-- The bracket selection of UpdateAndGetProperty: the upper bracket key1 is
    the first key whose time is at least t, or the last key when none
    qualifies; the lower bracket key0 is the preceding key, or key1 itself when
    key1 is the first key. Returns (key0, key1). -/
def findBracketKeys (keys : List AnimationKey) (t : ℚ) : ℕ × ℕ :=
  let key1 :=
    match findFirstGE t keys with
    | some i => i
    | none => keys.length - 1
  (if key1 = 0 then 0 else key1 - 1, key1)

/-- The raw blend factor of UpdateAndGetProperty: (t - t0) / (t1 - t0),
    treated as 0 when the gap t1 - t0 is at most the epsilon 1e-3, then
    clamped to the range 0..1. -/
def computeRawAlpha (t0 t1 t : ℚ) : ℚ :=
  Math.Clamp (if t1 - t0 > 1 / 1000 then (t - t0) / (t1 - t0) else 0) 0 1

/-- The clock advance at the top of UpdateAndGetProperty: record the new world
    time and add the elapsed delta to the time since the iteration started. -/
def timeAdvanced (a : ElementAnimation) (world_time : ℚ) : ElementAnimation :=
  { a with last_update_world_time := world_time
           time_since_iteration_start :=
             a.time_since_iteration_start + (world_time - a.last_update_world_time) }

/-- The iteration step of UpdateAndGetProperty: when the time since the
    iteration start has reached the duration, move to the next iteration —
    if more iterations remain (or they are unbounded, num_iterations = -1),
    reset the elapsed time to 0 and flip the reverse flag when alternating;
    otherwise mark the animation complete and clamp the elapsed time to the
    duration. -/
def advanceIteration (a : ElementAnimation) : ElementAnimation :=
  if a.time_since_iteration_start ≥ a.duration then
    let ci := a.current_iteration + 1
    if ci < a.num_iterations ∨ a.num_iterations = -1 then
      { a with current_iteration := ci
               time_since_iteration_start := 0
               reverse_direction :=
                 if a.alternate_direction then !a.reverse_direction else a.reverse_direction }
    else
      { a with current_iteration := ci
               animation_complete := true
               time_since_iteration_start := a.duration }
  else a

/-- The local playback time of UpdateAndGetProperty: the time since the
    iteration start, mirrored against the duration when playing in reverse. -/
def localTime (a : ElementAnimation) : ℚ :=
  if a.reverse_direction then a.duration - a.time_since_iteration_start
  else a.time_since_iteration_start

/-- The evaluation tail of UpdateAndGetProperty: select the bracket keys,
    compute the raw blend factor, apply the upper key's tween, and interpolate
    the two key values. -/
noncomputable def evalKeys (keys : List AnimationKey) (t : ℚ) : Variant × ℕ :=
  let kk := findBracketKeys keys t
  let k0 := keys.getD kk.1 defaultKey
  let k1 := keys.getD kk.2 defaultKey
  InterpolateValues k0.value k1.value (k1.tween (computeRawAlpha k0.time k1.time t))

/-- ElementAnimation::UpdateAndGetProperty from the source: an empty result
    when the animation is complete, the timeline invalid, or the world time
    does not advance; otherwise advance the clock and the iteration state,
    evaluate at the local playback time, and return the interpolated value
    tagged with the timeline's unit and specificity, together with the updated
    state. -/
noncomputable def ElementAnimation.UpdateAndGetProperty (a : ElementAnimation)
    (world_time : ℚ) : Property × ElementAnimation :=
  if a.animation_complete = true ∨ a.valid = false ∨
      world_time - a.last_update_world_time ≤ 0 then
    (emptyProperty, a)
  else
    let a2 := advanceIteration (timeAdvanced a world_time)
    ({ value := (evalKeys a2.keys (localTime a2)).1
       unit := a2.property_unit
       specificity := a2.property_specificity }, a2)

section EvaluationLemmas

/-- AddKey rejection: a unit mismatch or an invalid timeline returns failure
    with no state change. -/
theorem AddKey_reject (a : ElementAnimation) (time : ℚ) (property : Property)
    (element : Element) (tween : Tween)
    (h : property.unit ≠ a.property_unit ∨ a.valid = false) :
    a.AddKey time property element tween = (false, a) := by
  simp only [ElementAnimation.AddKey, if_pos h]

/-- AddKey coercion failure: when the checks pass but the value cannot be made
    unit-valid, the add fails and the state is unchanged. -/
theorem AddKey_coerce_fail (a : ElementAnimation) (time : ℚ) (property : Property)
    (element : Element) (tween : Tween)
    (h1 : ¬ (property.unit ≠ a.property_unit ∨ a.valid = false))
    (h2 : (TryMakeUnitValid property.value).1 = false) :
    a.AddKey time property element tween = (false, a) := by
  simp only [ElementAnimation.AddKey, if_neg h1, if_pos h2]

/-- AddKey for a non-transform unit: the coerced key is appended. -/
theorem AddKey_nonTransform (a : ElementAnimation) (time : ℚ) (property : Property)
    (element : Element) (tween : Tween)
    (h1 : ¬ (property.unit ≠ a.property_unit ∨ a.valid = false))
    (h2 : ¬ ((TryMakeUnitValid property.value).1 = false))
    (h3 : ¬ (property.unit = PropertyUnit.TRANSFORM)) :
    a.AddKey time property element tween =
      (true, { a with keys := a.keys ++
        [{ time := time, value := (TryMakeUnitValid property.value).2, tween := tween }] }) := by
  simp only [ElementAnimation.AddKey, if_neg h1, if_neg h2, if_neg h3]

/-- AddKey for a transform unit whose unit resolution fails: the add fails and
    the state is unchanged. -/
theorem AddKey_transform_resolveFail (a : ElementAnimation) (time : ℚ) (property : Property)
    (element : Element) (tween : Tween)
    (h1 : ¬ (property.unit ≠ a.property_unit ∨ a.valid = false))
    (h2 : ¬ ((TryMakeUnitValid property.value).1 = false))
    (h3 : property.unit = PropertyUnit.TRANSFORM)
    (h4 : (resolveAllUnits element (TryMakeUnitValid property.value).2.getTransform).1 = false) :
    a.AddKey time property element tween = (false, a) := by
  simp only [ElementAnimation.AddKey, if_neg h1, if_neg h2, if_pos h3, if_pos h4]

/-- AddKey for a transform unit with units resolved: the outcome is decided by
    PrepareTransforms over the appended key list — failure pops the appended
    key but keeps the reconciliation mutations, success keeps the whole list. -/
theorem AddKey_transform_prepared (a : ElementAnimation) (time : ℚ) (property : Property)
    (element : Element) (tween : Tween)
    (h1 : ¬ (property.unit ≠ a.property_unit ∨ a.valid = false))
    (h2 : ¬ ((TryMakeUnitValid property.value).1 = false))
    (h3 : property.unit = PropertyUnit.TRANSFORM)
    (h4 : ¬ ((resolveAllUnits element (TryMakeUnitValid property.value).2.getTransform).1 = false)) :
    a.AddKey time property element tween =
      (let keys' := a.keys ++
         [⟨time, Variant.TRANSFORMREF (resolveAllUnits element (TryMakeUnitValid property.value).2.getTransform).2, tween⟩]
       let rPrep := PrepareTransforms keys' element ((keys'.length : ℤ) - 1)
       if rPrep.1 = false then (false, { a with keys := rPrep.2.dropLast })
       else (true, { a with keys := rPrep.2 })) := by
  simp only [ElementAnimation.AddKey, if_neg h1, if_neg h2, if_pos h3, if_neg h4]

/-- UpdateAndGetProperty no-op: a completed or invalid timeline, or a world
    time that does not advance, returns the empty property and leaves the
    state untouched. -/
theorem Update_noop (a : ElementAnimation) (world_time : ℚ)
    (h : a.animation_complete = true ∨ a.valid = false ∨
         world_time - a.last_update_world_time ≤ 0) :
    a.UpdateAndGetProperty world_time = (emptyProperty, a) := by
  simp only [ElementAnimation.UpdateAndGetProperty, if_pos h]

/-- UpdateAndGetProperty active step: otherwise the clock and iteration state
    advance and the value is evaluated at the local playback time. -/
theorem Update_active (a : ElementAnimation) (world_time : ℚ)
    (h : ¬ (a.animation_complete = true ∨ a.valid = false ∨
            world_time - a.last_update_world_time ≤ 0)) :
    a.UpdateAndGetProperty world_time =
      ({ value := (evalKeys (advanceIteration (timeAdvanced a world_time)).keys
           (localTime (advanceIteration (timeAdvanced a world_time)))).1
         unit := (advanceIteration (timeAdvanced a world_time)).property_unit
         specificity := (advanceIteration (timeAdvanced a world_time)).property_specificity },
       advanceIteration (timeAdvanced a world_time)) := by
  simp only [ElementAnimation.UpdateAndGetProperty, if_neg h]

/-- The iteration step does nothing while the elapsed time is below the
    duration. -/
theorem advanceIteration_notYet (a : ElementAnimation)
    (h : a.time_since_iteration_start < a.duration) :
    advanceIteration a = a := by
  simp only [advanceIteration, if_neg (not_le.mpr h)]

/-- The iteration step when another iteration remains: elapsed time resets and
    the reverse flag flips when alternating. -/
theorem advanceIteration_continue (a : ElementAnimation)
    (h : a.time_since_iteration_start ≥ a.duration)
    (h2 : a.current_iteration + 1 < a.num_iterations ∨ a.num_iterations = -1) :
    advanceIteration a =
      { a with current_iteration := a.current_iteration + 1
               time_since_iteration_start := 0
               reverse_direction :=
                 if a.alternate_direction then !a.reverse_direction else a.reverse_direction } := by
  simp only [advanceIteration, if_pos h, if_pos h2]

/-- The iteration step when no iteration remains: the animation is marked
    complete and the elapsed time is clamped to the duration. -/
theorem advanceIteration_complete (a : ElementAnimation)
    (h : a.time_since_iteration_start ≥ a.duration)
    (h2 : ¬ (a.current_iteration + 1 < a.num_iterations ∨ a.num_iterations = -1)) :
    advanceIteration a =
      { a with current_iteration := a.current_iteration + 1
               animation_complete := true
               time_since_iteration_start := a.duration } := by
  simp only [advanceIteration, if_pos h, if_neg h2]

end EvaluationLemmas

section TimingScenario

/-- An element with no unit-relative primitives and no decomposable matrices;
    the timing scenario never consults it. -/
def plainElement : Element :=
  { resolveUnits := fun p => some p, decompose := fun _ => none }

/-- The initial float value 0 of the timing scenario. -/
def timingProp0 : Property := { value := .FLOAT 0, unit := .NUMBER, specificity := 10 }

/-- The target float value 10 of the timing scenario. -/
def timingProp1 : Property := { value := .FLOAT 10, unit := .NUMBER, specificity := 10 }

/-- The keys of the timing scenario: value 0 at local time 0 and value 10 at
    local time 1. -/
def timingKeys : List AnimationKey :=
  [⟨0, .FLOAT 0, defaultTween⟩, ⟨1, .FLOAT 10, defaultTween⟩]

/-- The timing scenario timeline, built through the constructor and AddKey:
    duration 1, two iterations, alternating direction, starting at world time
    s. -/
def timingState (s : ℚ) : ElementAnimation :=
  ((ElementAnimation.make "opacity" timingProp0 s 1 2 true).AddKey 1 timingProp1
    plainElement defaultTween).2

/-- The timing scenario timeline written out as a literal record. -/
def timingLit (s : ℚ) : ElementAnimation :=
  { property_name := "opacity"
    property_unit := .NUMBER
    property_specificity := 10
    duration := 1
    num_iterations := 2
    alternate_direction := true
    keys := timingKeys
    last_update_world_time := s
    time_since_iteration_start := 0
    current_iteration := 0
    reverse_direction := false
    animation_complete := false
    valid := true }

/-- The timing scenario state after the first query. -/
def timingAfter1 (s : ℚ) : ElementAnimation :=
  { timingLit s with last_update_world_time := s + 1/2, time_since_iteration_start := 1/2 }

/-- The timing scenario state after the second query (iteration wrapped,
    reverse flag on, overshoot discarded). -/
def timingAfter2 (s : ℚ) : ElementAnimation :=
  { timingLit s with last_update_world_time := s + 3/2, time_since_iteration_start := 0,
                     current_iteration := 1, reverse_direction := true }

/-- The timing scenario state after the third query. -/
def timingAfter3 (s : ℚ) : ElementAnimation :=
  { timingLit s with last_update_world_time := s + 2, time_since_iteration_start := 1/2,
                     current_iteration := 1, reverse_direction := true }

/-- The timing scenario state after the fourth query (complete). -/
def timingAfter4 (s : ℚ) : ElementAnimation :=
  { timingLit s with last_update_world_time := s + 5/2, time_since_iteration_start := 1,
                     current_iteration := 2, reverse_direction := true,
                     animation_complete := true }

/-- The clock-advanced state inside the second query, before the iteration
    step. -/
def timingMid2 (s : ℚ) : ElementAnimation :=
  { timingLit s with last_update_world_time := s + 3/2, time_since_iteration_start := 3/2 }

/-- The clock-advanced state inside the fourth query, before the iteration
    step. -/
def timingMid4 (s : ℚ) : ElementAnimation :=
  { timingLit s with last_update_world_time := s + 5/2, time_since_iteration_start := 1, current_iteration := 1, reverse_direction := true }

/-- Building the timing scenario through the constructor and AddKey yields the
    literal record. -/
theorem timingState_eq (s : ℚ) : timingState s = timingLit s := by
  simp only [timingState, timingLit, timingKeys, timingProp0, timingProp1,
    ElementAnimation.make, ElementAnimation.AddKey, TryMakeUnitValid]
  simp only [reduceCtorEq]
  norm_num

/-- First query of the timing scenario, at world time s + 1/2: forward
    direction, halfway between the keys, value 5. -/
theorem timingStep1 (s : ℚ) :
    (timingLit s).UpdateAndGetProperty (s + 1/2) =
      ({ value := .FLOAT 5, unit := .NUMBER, specificity := 10 }, timingAfter1 s) := by
  have h : ¬ ((timingLit s).animation_complete = true ∨ (timingLit s).valid = false ∨
      s + 1/2 - (timingLit s).last_update_world_time ≤ 0) := by
    simp only [timingLit]
    push_neg
    norm_num
  rw [Update_active _ _ h]
  have ht : timeAdvanced (timingLit s) (s + 1/2) = timingAfter1 s := by
    simp only [timeAdvanced, timingLit, timingAfter1]
    norm_num
  rw [ht]
  have ha : advanceIteration (timingAfter1 s) = timingAfter1 s := by
    apply advanceIteration_notYet
    simp only [timingAfter1, timingLit]
    norm_num
  rw [ha]
  have he : evalKeys timingKeys (1/2 : ℚ) = (.FLOAT 5, 0) := by
    norm_num [evalKeys, findBracketKeys, findFirstGE, timingKeys, computeRawAlpha,
      Math.Clamp, InterpolateValues, Variant.GetType, defaultTween, List.getD, defaultKey]
  simp only [timingAfter1, timingLit, localTime]
  norm_num [he]

/-- Second query of the timing scenario, at world time s + 3/2: the elapsed
    time 3/2 meets the duration, so the iteration wraps — elapsed time resets
    to 0 (the half-second overshoot is discarded), the reverse flag flips on —
    and the local time becomes duration - 0 = 1, yielding value 10. -/
theorem timingStep2 (s : ℚ) :
    (timingAfter1 s).UpdateAndGetProperty (s + 3/2) =
      ({ value := .FLOAT 10, unit := .NUMBER, specificity := 10 }, timingAfter2 s) := by
  have h : ¬ ((timingAfter1 s).animation_complete = true ∨ (timingAfter1 s).valid = false ∨
      s + 3/2 - (timingAfter1 s).last_update_world_time ≤ 0) := by
    simp only [timingAfter1, timingLit]
    push_neg
    norm_num
  rw [Update_active _ _ h]
  have ht : timeAdvanced (timingAfter1 s) (s + 3/2) = timingMid2 s := by
    simp only [timeAdvanced, timingAfter1, timingMid2, timingLit]
    norm_num
  rw [ht]
  have ha : advanceIteration (timingMid2 s) = timingAfter2 s := by
    rw [advanceIteration_continue]
    all_goals norm_num [timingMid2, timingLit, timingAfter2]
  rw [ha]
  have he : evalKeys timingKeys (1 : ℚ) = (.FLOAT 10, 0) := by
    norm_num [evalKeys, findBracketKeys, findFirstGE, timingKeys, computeRawAlpha,
      Math.Clamp, InterpolateValues, Variant.GetType, defaultTween, List.getD, defaultKey]
  simp only [timingAfter2, timingLit, localTime]
  norm_num [he]

/-- Third query of the timing scenario, at world time s + 2: half a second
    into the reversed second iteration, local time 1 - 1/2 = 1/2, value 5; the
    animation is not yet complete (the discarded overshoot delayed it). -/
theorem timingStep3 (s : ℚ) :
    (timingAfter2 s).UpdateAndGetProperty (s + 2) =
      ({ value := .FLOAT 5, unit := .NUMBER, specificity := 10 }, timingAfter3 s) := by
  have h : ¬ ((timingAfter2 s).animation_complete = true ∨ (timingAfter2 s).valid = false ∨
      s + 2 - (timingAfter2 s).last_update_world_time ≤ 0) := by
    simp only [timingAfter2, timingLit]
    push_neg
    norm_num
  rw [Update_active _ _ h]
  have ht : timeAdvanced (timingAfter2 s) (s + 2) = timingAfter3 s := by
    simp only [timeAdvanced, timingAfter2, timingAfter3, timingLit]
    norm_num
  rw [ht]
  have ha : advanceIteration (timingAfter3 s) = timingAfter3 s := by
    apply advanceIteration_notYet
    simp only [timingAfter3, timingLit]
    norm_num
  rw [ha]
  have he : evalKeys timingKeys (1/2 : ℚ) = (.FLOAT 5, 0) := by
    norm_num [evalKeys, findBracketKeys, findFirstGE, timingKeys, computeRawAlpha,
      Math.Clamp, InterpolateValues, Variant.GetType, defaultTween, List.getD, defaultKey]
  simp only [timingAfter3, timingLit, localTime]
  norm_num [he]

/-- Fourth query of the timing scenario, at world time s + 5/2: the reversed
    second iteration ends, the animation completes, the elapsed time clamps to
    the duration, local time 1 - 1 = 0, value 0. -/
theorem timingStep4 (s : ℚ) :
    (timingAfter3 s).UpdateAndGetProperty (s + 5/2) =
      ({ value := .FLOAT 0, unit := .NUMBER, specificity := 10 }, timingAfter4 s) := by
  have h : ¬ ((timingAfter3 s).animation_complete = true ∨ (timingAfter3 s).valid = false ∨
      s + 5/2 - (timingAfter3 s).last_update_world_time ≤ 0) := by
    simp only [timingAfter3, timingLit]
    push_neg
    norm_num
  rw [Update_active _ _ h]
  have ht : timeAdvanced (timingAfter3 s) (s + 5/2) = timingMid4 s := by
    simp only [timeAdvanced, timingAfter3, timingMid4, timingLit]
    norm_num
  rw [ht]
  have ha : advanceIteration (timingMid4 s) = timingAfter4 s := by
    rw [advanceIteration_complete]
    all_goals norm_num [timingMid4, timingLit, timingAfter4]
  rw [ha]
  have he : evalKeys timingKeys (0 : ℚ) = (.FLOAT 0, 0) := by
    norm_num [evalKeys, findBracketKeys, findFirstGE, timingKeys, computeRawAlpha,
      Math.Clamp, InterpolateValues, Variant.GetType, defaultTween, List.getD, defaultKey]
  simp only [timingAfter4, timingLit, localTime]
  norm_num [he]

end TimingScenario

/-- C1 (counterexample): in the timing scenario (duration 1, two iterations,
    alternating, keys 0 at t=0 and 10 at t=1, started at world time 0) the
    query at world time 0 + 3/2 returns value 10, not approximately 5, because
    the iteration wrap resets the elapsed time to 0 and the local time becomes
    the full duration; and at world time 0 + 2 the animation is not complete
    and the value is 5, not 0. -/
theorem claim_C1_counterexample :
    ((timingState 0).UpdateAndGetProperty (0 + 1/2)).1.value = Variant.FLOAT 5 ∧
    (((timingState 0).UpdateAndGetProperty (0 + 1/2)).2.UpdateAndGetProperty (0 + 3/2)).1.value
      = Variant.FLOAT 10 ∧
    ¬ ((((timingState 0).UpdateAndGetProperty (0 + 1/2)).2.UpdateAndGetProperty
        (0 + 3/2)).1.value = Variant.FLOAT 5) ∧
    ((((timingState 0).UpdateAndGetProperty (0 + 1/2)).2.UpdateAndGetProperty
        (0 + 3/2)).2.UpdateAndGetProperty (0 + 2)).2.IsComplete = false ∧
    ((((timingState 0).UpdateAndGetProperty (0 + 1/2)).2.UpdateAndGetProperty
        (0 + 3/2)).2.UpdateAndGetProperty (0 + 2)).1.value = Variant.FLOAT 5 ∧
    ¬ (((((timingState 0).UpdateAndGetProperty (0 + 1/2)).2.UpdateAndGetProperty
        (0 + 3/2)).2.UpdateAndGetProperty (0 + 2)).1.value = Variant.FLOAT 0) := by
  have e0 := timingState_eq 0
  have e1 := timingStep1 0
  have e2 := timingStep2 0
  have e3 := timingStep3 0
  rw [e0]
  simp only [e1, e2, e3]
  simp [ElementAnimation.IsComplete, timingAfter3, timingLit]

/-- C1 (amended): in the timing scenario with duration 1, two iterations,
    alternating direction and keys 0 at local time 0 and 10 at local time 1,
    the query at world time start + 1/2 returns value 5; the query at
    start + 3/2 wraps the iteration, discarding the overshoot (elapsed time
    resets to exactly 0), sets the reverse flag and returns value 10 (the local
    time is the full duration); the query at start + 2 returns value 5, midway
    through the reversed iteration, with the animation not yet complete; and
    the query at start + 5/2 completes the animation with value 0. -/
theorem claim_C1 (s : ℚ) :
    (timingState s).UpdateAndGetProperty (s + 1/2) =
      ({ value := .FLOAT 5, unit := .NUMBER, specificity := 10 }, timingAfter1 s) ∧
    (timingAfter1 s).UpdateAndGetProperty (s + 3/2) =
      ({ value := .FLOAT 10, unit := .NUMBER, specificity := 10 }, timingAfter2 s) ∧
    (timingAfter2 s).reverse_direction = true ∧
    (timingAfter2 s).UpdateAndGetProperty (s + 2) =
      ({ value := .FLOAT 5, unit := .NUMBER, specificity := 10 }, timingAfter3 s) ∧
    (timingAfter3 s).IsComplete = false ∧
    (timingAfter3 s).UpdateAndGetProperty (s + 5/2) =
      ({ value := .FLOAT 0, unit := .NUMBER, specificity := 10 }, timingAfter4 s) ∧
    (timingAfter4 s).IsComplete = true := by
  refine ⟨?_, timingStep2 s, ?_, timingStep3 s, ?_, timingStep4 s, ?_⟩
  · rw [timingState_eq]
    exact timingStep1 s
  · simp [timingAfter2, timingLit]
  · simp [ElementAnimation.IsComplete, timingAfter3, timingLit]
  · simp [ElementAnimation.IsComplete, timingAfter4, timingLit]



section CompletedTerminal

/-- AddKey never changes the completed flag: every branch either returns the
    state unchanged or only replaces the key list. -/
theorem AddKey_complete_invariant (a : ElementAnimation) (time : ℚ) (property : Property)
    (element : Element) (tween : Tween) :
    (a.AddKey time property element tween).2.animation_complete = a.animation_complete := by
  by_cases h1 : property.unit ≠ a.property_unit ∨ a.valid = false
  · rw [AddKey_reject _ _ _ _ _ h1]
  · by_cases h2 : (TryMakeUnitValid property.value).1 = false
    · rw [AddKey_coerce_fail _ _ _ _ _ h1 h2]
    · by_cases h3 : property.unit = PropertyUnit.TRANSFORM
      · by_cases h4 : (resolveAllUnits element (TryMakeUnitValid property.value).2.getTransform).1 = false
        · rw [AddKey_transform_resolveFail _ _ _ _ _ h1 h2 h3 h4]
        · rw [AddKey_transform_prepared _ _ _ _ _ h1 h2 h3 h4]
          simp only []
          split <;> rfl
      · rw [AddKey_nonTransform _ _ _ _ _ h1 h2 h3]

/-- C3: once the completed flag is true it never becomes false again — a
    completed timeline's update returns the empty property and the state
    entirely unchanged (all playback fields and keys included), the flag stays
    true after any update, and AddKey never touches the flag. -/
theorem claim_C3 :
    (∀ (a : ElementAnimation) (world_time : ℚ), a.animation_complete = true →
      a.UpdateAndGetProperty world_time = (emptyProperty, a)) ∧
    (∀ (a : ElementAnimation) (world_time : ℚ), a.animation_complete = true →
      (a.UpdateAndGetProperty world_time).2.animation_complete = true) ∧
    (∀ (a : ElementAnimation) (time : ℚ) (property : Property) (element : Element)
      (tween : Tween),
      (a.AddKey time property element tween).2.animation_complete = a.animation_complete) := by
  refine ⟨fun a wt h => Update_noop a wt (Or.inl h), fun a wt h => ?_,
    fun a t p e tw => AddKey_complete_invariant a t p e tw⟩
  rw [Update_noop a wt (Or.inl h)]
  exact h

/-- Witness for C3 at a concrete completed state: the completed timing
    scenario state is frozen by a later query and AddKey leaves its flag
    alone. -/
theorem claim_C3_witness :
    (timingAfter4 0).UpdateAndGetProperty 100 = (emptyProperty, timingAfter4 0) ∧
    ((timingAfter4 0).UpdateAndGetProperty 100).2.animation_complete = true ∧
    ((timingAfter4 0).AddKey 2 timingProp1 plainElement defaultTween).2.animation_complete
      = (timingAfter4 0).animation_complete :=
  ⟨claim_C3.1 (timingAfter4 0) 100 rfl,
   claim_C3.2.1 (timingAfter4 0) 100 rfl,
   claim_C3.2.2 (timingAfter4 0) 2 timingProp1 plainElement defaultTween⟩

end CompletedTerminal

section IterationCount

/-- The iteration step treats every iteration count below 1 other than -1
    exactly like the count 1, as soon as the current iteration index is
    non-negative. -/
theorem advanceIteration_low_count (a : ElementAnimation) (n : ℤ)
    (h0 : 0 ≤ a.current_iteration) (h1 : n < 1) (h2 : n ≠ -1) :
    advanceIteration { a with num_iterations := n } =
      { advanceIteration { a with num_iterations := 1 } with num_iterations := n } := by
  obtain ⟨pn, pu, ps, d, ni, alt, ks, l, t, ci, rev, comp, v⟩ := a
  simp only [advanceIteration] at h0 ⊢
  by_cases hd : t ≥ d
  · rw [if_pos hd, if_pos hd]
    have h0' : (0 : ℤ) ≤ ci := h0
    have hn : ¬ (ci + 1 < n ∨ n = -1) := by omega
    have h1' : ¬ (ci + 1 < 1 ∨ (1 : ℤ) = -1) := by omega
    rw [if_neg hn, if_neg h1']
  · rw [if_neg hd, if_neg hd]

/-- C10: for every iteration count below 1 and different from -1 (such as 0 or
    -2), the timeline behaves exactly like an iteration count of 1 — the first
    time the elapsed time reaches the duration the animation is marked
    complete and the elapsed time clamps to the duration — and the returned
    state differs from the count-1 run only in the stored iteration count;
    only num_iterations = -1 never completes. -/
theorem claim_C10 :
    (∀ (a : ElementAnimation) (world_time : ℚ) (n : ℤ),
      0 ≤ a.current_iteration → n < 1 → n ≠ -1 →
      ({ a with num_iterations := n } : ElementAnimation).UpdateAndGetProperty world_time =
        ((({ a with num_iterations := 1 } : ElementAnimation).UpdateAndGetProperty world_time).1,
         { (({ a with num_iterations := 1 } : ElementAnimation).UpdateAndGetProperty world_time).2
            with num_iterations := n })) ∧
    (∀ (a : ElementAnimation) (world_time : ℚ), a.num_iterations = -1 →
      (a.UpdateAndGetProperty world_time).2.animation_complete = a.animation_complete) := by
  constructor
  · intro a wt n h0 h1 h2
    by_cases hg : a.animation_complete = true ∨ a.valid = false ∨
        wt - a.last_update_world_time ≤ 0
    · rw [Update_noop ({ a with num_iterations := n }) wt hg,
          Update_noop ({ a with num_iterations := 1 }) wt hg]
    · rw [Update_active ({ a with num_iterations := n }) wt hg,
          Update_active ({ a with num_iterations := 1 }) wt hg]
      have hta : timeAdvanced ({ a with num_iterations := n }) wt =
          { timeAdvanced a wt with num_iterations := n } := by
        obtain ⟨pn, pu, ps, d, ni, alt, ks, l, t, ci, rev, comp, v⟩ := a
        rfl
      have hta1 : timeAdvanced ({ a with num_iterations := 1 }) wt =
          { timeAdvanced a wt with num_iterations := 1 } := by
        obtain ⟨pn, pu, ps, d, ni, alt, ks, l, t, ci, rev, comp, v⟩ := a
        rfl
      have hci : 0 ≤ (timeAdvanced a wt).current_iteration := by
        obtain ⟨pn, pu, ps, d, ni, alt, ks, l, t, ci, rev, comp, v⟩ := a
        exact h0
      rw [hta, hta1, advanceIteration_low_count (timeAdvanced a wt) n hci h1 h2]
      obtain ⟨pn1, pu1, ps1, d1, ni1, alt1, ks1, l1, t1, ci1, rev1, comp1, v1⟩ :=
        advanceIteration { timeAdvanced a wt with num_iterations := 1 }
      rfl
  · intro a wt h
    by_cases hg : a.animation_complete = true ∨ a.valid = false ∨
        wt - a.last_update_world_time ≤ 0
    · rw [Update_noop _ _ hg]
    · rw [Update_active _ _ hg]
      have hni : (timeAdvanced a wt).num_iterations = -1 := h
      by_cases hd : (timeAdvanced a wt).time_since_iteration_start ≥ (timeAdvanced a wt).duration
      · rw [advanceIteration_continue _ hd (Or.inr hni)]
        rfl
      · rw [advanceIteration_notYet _ (not_le.mp (by exact fun hh => hd hh))]
        rfl

/-- Witness for C10 at concrete inputs: iteration count 0 behaves like 1 on
    the timing timeline, and iteration count -1 never completes. -/
theorem claim_C10_witness :
    ({ timingLit 0 with num_iterations := 0 } : ElementAnimation).UpdateAndGetProperty (1/2) =
      ((({ timingLit 0 with num_iterations := 1 } : ElementAnimation).UpdateAndGetProperty (1/2)).1,
       { (({ timingLit 0 with num_iterations := 1 } : ElementAnimation).UpdateAndGetProperty (1/2)).2
          with num_iterations := 0 }) ∧
    (({ timingLit 0 with num_iterations := -1 } : ElementAnimation).UpdateAndGetProperty (1/2)).2.animation_complete
      = ({ timingLit 0 with num_iterations := -1 } : ElementAnimation).animation_complete :=
  ⟨claim_C10.1 (timingLit 0) (1/2) 0 (by decide) (by decide) (by decide),
   claim_C10.2 ({ timingLit 0 with num_iterations := -1 }) (1/2) rfl⟩

end IterationCount

section KeysInvariant

/-- The reconciliation loop only rewrites keys in place, never changing how
    many there are. -/
theorem prepareTransformsLoop_length (e : Element) (maxIterations : ℤ)
    (keys : List AnimationKey) (i : ℕ) (count : ℤ) :
    (prepareTransformsLoop e maxIterations keys i count).2.1.length = keys.length := by
  rw [prepareTransformsLoop]
  by_cases h : i < keys.length ∧ count < maxIterations
  · rw [dif_pos h]
    simp only []
    split
    · simp
    · rw [prepareTransformsLoop_length]
      simp
  · rw [dif_neg h]
termination_by (maxIterations - count).toNat
decreasing_by omega

/-- PrepareTransforms preserves the number of keys. -/
theorem PrepareTransforms_length (keys : List AnimationKey) (e : Element) (startIndex : ℤ) :
    (PrepareTransforms keys e startIndex).2.length = keys.length := by
  simp only [PrepareTransforms]
  exact prepareTransformsLoop_length _ _ _ _ _

/-- AddKey keeps the key list non-empty: a failed add removes only the key it
    appended. -/
theorem AddKey_keys_ne_nil (a : ElementAnimation) (time : ℚ) (property : Property)
    (element : Element) (tween : Tween) (h : a.keys ≠ []) :
    (a.AddKey time property element tween).2.keys ≠ [] := by
  by_cases h1 : property.unit ≠ a.property_unit ∨ a.valid = false
  · rw [AddKey_reject _ _ _ _ _ h1]
    exact h
  · by_cases h2 : (TryMakeUnitValid property.value).1 = false
    · rw [AddKey_coerce_fail _ _ _ _ _ h1 h2]
      exact h
    · by_cases h3 : property.unit = PropertyUnit.TRANSFORM
      · by_cases h4 : (resolveAllUnits element (TryMakeUnitValid property.value).2.getTransform).1 = false
        · rw [AddKey_transform_resolveFail _ _ _ _ _ h1 h2 h3 h4]
          exact h
        · rw [AddKey_transform_prepared _ _ _ _ _ h1 h2 h3 h4]
          simp only []
          have hlen := PrepareTransforms_length
            (a.keys ++ [(⟨time, Variant.TRANSFORMREF (resolveAllUnits element (TryMakeUnitValid property.value).2.getTransform).2, tween⟩ : AnimationKey)])
            element ((((a.keys ++ [(⟨time, Variant.TRANSFORMREF (resolveAllUnits element (TryMakeUnitValid property.value).2.getTransform).2, tween⟩ : AnimationKey)]).length : ℕ) : ℤ) - 1)
          split
          · simp only []
            rw [← List.length_pos, List.length_dropLast, hlen]
            simp only [List.length_append, List.length_singleton]
            have := List.length_pos.mpr h
            omega
          · simp only []
            rw [← List.length_pos, hlen]
            simp
      · rw [AddKey_nonTransform _ _ _ _ _ h1 h2 h3]
        simp

/-- UpdateAndGetProperty never changes the key list. -/
theorem Update_keys_eq (a : ElementAnimation) (world_time : ℚ) :
    (a.UpdateAndGetProperty world_time).2.keys = a.keys := by
  by_cases hg : a.animation_complete = true ∨ a.valid = false ∨
      world_time - a.last_update_world_time ≤ 0
  · rw [Update_noop _ _ hg]
  · rw [Update_active _ _ hg]
    simp only [advanceIteration, timeAdvanced]
    split
    · split <;> rfl
    · rfl

/-- The scan for the first key at or after t returns an in-bounds index. -/
theorem findFirstGE_lt_length (t : ℚ) :
    ∀ (keys : List AnimationKey) (i : ℕ), findFirstGE t keys = some i → i < keys.length := by
  intro keys
  induction keys with
  | nil => intro i hi; simp [findFirstGE] at hi
  | cons k ks ih =>
    intro i hi
    simp only [findFirstGE] at hi
    by_cases hk : t ≤ k.time
    · rw [if_pos hk] at hi
      cases hi
      simp
    · rw [if_neg hk] at hi
      cases hf : findFirstGE t ks with
      | none => rw [hf] at hi; cases hi
      | some j =>
        rw [hf] at hi
        cases hi
        have := ih j hf
        simp only [List.length_cons]
        omega

/-- The bracket indices are always in bounds on a non-empty key list, with the
    lower bracket at or below the upper. -/
theorem findBracketKeys_bounds (keys : List AnimationKey) (t : ℚ) (h : keys ≠ []) :
    (findBracketKeys keys t).1 ≤ (findBracketKeys keys t).2 ∧
    (findBracketKeys keys t).2 < keys.length := by
  have hpos : 0 < keys.length := List.length_pos.mpr h
  have hMlt : (match findFirstGE t keys with
      | some i => i
      | none => keys.length - 1) < keys.length := by
    cases hf : findFirstGE t keys with
    | none => simpa using Nat.sub_lt hpos Nat.one_pos
    | some i => simpa using findFirstGE_lt_length t keys i hf
  simp only [findBracketKeys]
  exact ⟨by split <;> omega, hMlt⟩

/-- C9: the key sequence of a timeline is never empty — construction seeds
    exactly one key, AddKey on failure removes only the key it appended, and
    updates never touch the keys — and on every non-empty key list the bracket
    selection satisfies 0 ≤ key0 ≤ key1 < number of keys, so the source's
    internal assertion holds and all key indexing is in bounds. -/
theorem claim_C9 :
    (∀ (property_name : String) (current_value : Property) (start_world_time duration : ℚ)
      (num_iterations : ℤ) (alternate_direction : Bool),
      (ElementAnimation.make property_name current_value start_world_time duration
        num_iterations alternate_direction).keys.length = 1) ∧
    (∀ (a : ElementAnimation) (time : ℚ) (property : Property) (element : Element)
      (tween : Tween), a.keys ≠ [] → (a.AddKey time property element tween).2.keys ≠ []) ∧
    (∀ (a : ElementAnimation) (world_time : ℚ),
      (a.UpdateAndGetProperty world_time).2.keys = a.keys) ∧
    (∀ (keys : List AnimationKey) (t : ℚ), keys ≠ [] →
      0 ≤ (findBracketKeys keys t).1 ∧
      (findBracketKeys keys t).1 ≤ (findBracketKeys keys t).2 ∧
      (findBracketKeys keys t).2 < keys.length) :=
  ⟨fun _ _ _ _ _ _ => rfl,
   fun a t p e tw h => AddKey_keys_ne_nil a t p e tw h,
   fun a wt => Update_keys_eq a wt,
   fun keys t h => ⟨Nat.zero_le _, (findBracketKeys_bounds keys t h).1,
                    (findBracketKeys_bounds keys t h).2⟩⟩

/-- Witness for C9 at concrete inputs: the timing scenario keys stay non-empty
    through AddKey and the bracket indices are in bounds at local time 1/2. -/
theorem claim_C9_witness :
    ((timingLit 0).AddKey 2 timingProp1 plainElement defaultTween).2.keys ≠ [] ∧
    (0 ≤ (findBracketKeys timingKeys (1/2)).1 ∧
     (findBracketKeys timingKeys (1/2)).1 ≤ (findBracketKeys timingKeys (1/2)).2 ∧
     (findBracketKeys timingKeys (1/2)).2 < timingKeys.length) :=
  ⟨claim_C9.2.1 (timingLit 0) 2 timingProp1 plainElement defaultTween (by simp [timingLit, timingKeys]),
   claim_C9.2.2.2 timingKeys (1/2) (by simp [timingKeys])⟩

end KeysInvariant

section InterpolationMismatch

/-- A kind mismatch at any shared position makes the pairwise primitive
    interpolation loop fail. -/
theorem interpolatePrimitives_mismatch (alpha : ℚ) :
    ∀ (p0 p1 : List Primitive) (i : ℕ) (h : i < p0.length) (h' : i < p1.length),
      (p0.get ⟨i, h⟩).kind ≠ (p1.get ⟨i, h'⟩).kind →
      interpolatePrimitives p0 p1 alpha = none := by
  intro p0
  induction p0 with
  | nil =>
    intro p1 i h
    simp at h
  | cons a as ih =>
    intro p1 i h h' hne
    cases p1 with
    | nil => simp at h'
    | cons b bs =>
      cases i with
      | zero =>
        simp only [List.get] at hne
        simp only [interpolatePrimitives, Primitive.InterpolateWithSpec, if_neg hne]
      | succ j =>
        simp only [List.get] at hne
        have hrec := ih bs j (by simpa using h) (by simpa using h') hne
        simp only [interpolatePrimitives, hrec]
        cases hw : a.InterpolateWithSpec b alpha <;> simp

/-- C8: for every pair of endpoint values and every blend factor, mismatched
    value kinds make InterpolateValues log a warning and return the first
    (lower-bracket) value unchanged, and for two transform values whose
    primitive sequences differ in length, or in primitive kind at some shared
    position, it likewise logs a warning and returns the lower-bracket value
    unchanged (the second component counts the warnings logged). -/
theorem claim_C8 :
    (∀ (v0 v1 : Variant) (alpha : ℚ), v0.GetType ≠ v1.GetType →
      InterpolateValues v0 v1 alpha = (v0, 1)) ∧
    (∀ (p0 p1 : List Primitive) (alpha : ℚ), p0.length ≠ p1.length →
      InterpolateValues (Variant.TRANSFORMREF p0) (Variant.TRANSFORMREF p1) alpha
        = (Variant.TRANSFORMREF p0, 1)) ∧
    (∀ (p0 p1 : List Primitive) (alpha : ℚ) (i : ℕ) (h : i < p0.length) (h' : i < p1.length),
      (p0.get ⟨i, h⟩).kind ≠ (p1.get ⟨i, h'⟩).kind →
      InterpolateValues (Variant.TRANSFORMREF p0) (Variant.TRANSFORMREF p1) alpha
        = (Variant.TRANSFORMREF p0, 1)) := by
  refine ⟨?_, ?_, ?_⟩
  · intro v0 v1 alpha h
    simp only [InterpolateValues, if_pos h]
  · intro p0 p1 alpha h
    simp only [InterpolateValues]
    rw [if_neg (fun hc => hc rfl)]
    simp only [if_pos h]
  · intro p0 p1 alpha i h h' hne
    by_cases hlen : p0.length ≠ p1.length
    · simp only [InterpolateValues]
      rw [if_neg (fun hc => hc rfl)]
      simp only [if_pos hlen]
    · simp only [InterpolateValues]
      rw [if_neg (fun hc => hc rfl)]
      rw [if_neg hlen]
      rw [interpolatePrimitives_mismatch alpha p0 p1 i h h' hne]

/-- Witness for C8 at concrete inputs: a float against an integer, transforms
    of different lengths, and transforms with mismatched kinds all return the
    first value with one warning. -/
theorem claim_C8_witness :
    InterpolateValues (Variant.FLOAT 1) (Variant.INT 2) (1/2) = (Variant.FLOAT 1, 1) ∧
    InterpolateValues (Variant.TRANSFORMREF [⟨.Scale, [2]⟩, ⟨.Rotate, [90]⟩])
      (Variant.TRANSFORMREF [⟨.Scale, [3]⟩]) (1/2)
      = (Variant.TRANSFORMREF [⟨.Scale, [2]⟩, ⟨.Rotate, [90]⟩], 1) ∧
    InterpolateValues (Variant.TRANSFORMREF [⟨.Rotate, [0]⟩])
      (Variant.TRANSFORMREF [⟨.Scale, [1]⟩]) (1/2)
      = (Variant.TRANSFORMREF [⟨.Rotate, [0]⟩], 1) :=
  ⟨claim_C8.1 (Variant.FLOAT 1) (Variant.INT 2) (1/2) (by decide),
   claim_C8.2.1 [⟨.Scale, [2]⟩, ⟨.Rotate, [90]⟩] [⟨.Scale, [3]⟩] (1/2) (by decide),
   claim_C8.2.2 [⟨.Rotate, [0]⟩] [⟨.Scale, [1]⟩] (1/2) 0 (by decide) (by decide) (by decide)⟩

end InterpolationMismatch

section RollbackScenario

/-- The element of the rollback scenario: units always resolve, and only the
    single-rotation primitive list decomposes (the new key's degenerate
    zero-scale transform does not). -/
def rollbackElem : Element :=
  { resolveUnits := fun p => some p
    decompose := fun l =>
      if l = [⟨.Rotate, [30]⟩] then some ⟨.DecomposedMatrix4, [30]⟩ else none }

/-- The initial transform value of the rollback scenario: one rotation. -/
def rollbackProp0 : Property :=
  { value := .TRANSFORMREF [⟨.Rotate, [30]⟩], unit := .TRANSFORM, specificity := 10 }

/-- The rollback scenario timeline: one seeded transform key. -/
def rollbackState : ElementAnimation :=
  ElementAnimation.make "transform" rollbackProp0 0 1 1 false

/-- The key added in the rollback scenario: a degenerate scale, incompatible
    with the rotation in kind. -/
def rollbackProp : Property :=
  { value := .TRANSFORMREF [⟨.Scale, [0]⟩], unit := .TRANSFORM, specificity := 10 }

/-- The two-key list right after the push inside AddKey. -/
def rollbackKeys2 : List AnimationKey :=
  [⟨0, .TRANSFORMREF [⟨.Rotate, [30]⟩], defaultTween⟩,
   ⟨1, .TRANSFORMREF [⟨.Scale, [0]⟩], defaultTween⟩]

/-- The key list after the failing reconciliation pass: the first key's
    transform has been replaced in place by its decomposition. -/
def rollbackMutated : List AnimationKey :=
  [⟨0, .TRANSFORMREF [⟨.DecomposedMatrix4, [30]⟩], defaultTween⟩,
   ⟨1, .TRANSFORMREF [⟨.Scale, [0]⟩], defaultTween⟩]

/-- Reconciling the rotation against the degenerate scale falls through to the
    decomposition fallback, which decomposes (and thereby mutates) the first
    transform and then fails on the second, yielding Invalid. -/
theorem rollback_pair :
    PrepareTransformPair [⟨.Rotate, [30]⟩] [⟨.Scale, [0]⟩] rollbackElem
      = (.Invalid, [⟨.DecomposedMatrix4, [30]⟩], [⟨.Scale, [0]⟩]) := by
  decide

/-- The reconciliation loop on the rollback keys stops at once with failure,
    keeping the first key's in-place mutation. -/
theorem rollback_loop :
    prepareTransformsLoop rollbackElem 6 rollbackKeys2 1 (-1) = (false, rollbackMutated, -1) := by
  rw [prepareTransformsLoop]
  rw [dif_pos (by norm_num [rollbackKeys2])]
  norm_num [rollbackKeys2, rollbackMutated, defaultKey, Variant.getTransform, rollback_pair,
    List.getD]

/-- PrepareTransforms on the rollback keys reports failure and returns the
    mutated key list. -/
theorem rollback_prep :
    PrepareTransforms rollbackKeys2 rollbackElem ((rollbackKeys2.length : ℤ) - 1)
      = (false, rollbackMutated) := by
  have hl : rollbackKeys2.length = 2 := rfl
  simp only [PrepareTransforms, hl]
  norm_num
  rw [rollback_loop]
  exact ⟨rfl, rfl⟩

/-- C2 (counterexample): adding the degenerate scale key to the rollback
    timeline fails at reconciliation; the key count is restored, but the
    timeline's first key no longer holds its original transform — the
    decomposition mutated it in place before the failure, so the key sequence
    is not left exactly as it was. -/
theorem claim_C2_counterexample :
    (rollbackState.AddKey 1 rollbackProp rollbackElem defaultTween).1 = false ∧
    (rollbackState.AddKey 1 rollbackProp rollbackElem defaultTween).2.keys.length
      = rollbackState.keys.length ∧
    (rollbackState.AddKey 1 rollbackProp rollbackElem defaultTween).2.keys
      = [⟨0, .TRANSFORMREF [⟨.DecomposedMatrix4, [30]⟩], defaultTween⟩] ∧
    ¬ ((rollbackState.AddKey 1 rollbackProp rollbackElem defaultTween).2.keys
      = rollbackState.keys) := by
  have h := AddKey_transform_prepared rollbackState 1 rollbackProp rollbackElem defaultTween
    (by decide) (by decide) (by decide) (by decide)
  rw [h]
  have harg : rollbackState.keys ++
      [(⟨1, Variant.TRANSFORMREF (resolveAllUnits rollbackElem
        (TryMakeUnitValid rollbackProp.value).2.getTransform).2, defaultTween⟩ : AnimationKey)]
      = rollbackKeys2 := rfl
  simp only [harg]
  have hl : (rollbackKeys2.length : ℤ) - 1 = (rollbackKeys2.length : ℤ) - 1 := rfl
  rw [rollback_prep]
  refine ⟨rfl, rfl, rfl, ?_⟩
  intro hc
  simp only [rollbackState, ElementAnimation.make, rollbackProp0, TryMakeUnitValid] at hc
  have hv := congrArg (fun l => (l.headD defaultKey).value) hc
  simp only [List.headD_cons] at hv
  exact absurd hv (by decide)

/-- C2 (amended): AddKey rejects with failure and no state change when the
    supplied value's unit differs from the timeline's unit or the timeline is
    already invalid; a coercion failure and a unit-resolution failure also
    leave the timeline exactly as it was (the appended key is popped again);
    a reconciliation failure reports failure and removes the appended key, so
    the key count is restored, but the surviving keys keep whatever in-place
    transform mutations reconciliation made before failing. -/
theorem claim_C2 :
    (∀ (a : ElementAnimation) (time : ℚ) (property : Property) (element : Element)
      (tween : Tween), property.unit ≠ a.property_unit ∨ a.valid = false →
      a.AddKey time property element tween = (false, a)) ∧
    (∀ (a : ElementAnimation) (time : ℚ) (property : Property) (element : Element)
      (tween : Tween), ¬ (property.unit ≠ a.property_unit ∨ a.valid = false) →
      (TryMakeUnitValid property.value).1 = false →
      a.AddKey time property element tween = (false, a)) ∧
    (∀ (a : ElementAnimation) (time : ℚ) (property : Property) (element : Element)
      (tween : Tween), ¬ (property.unit ≠ a.property_unit ∨ a.valid = false) →
      ¬ ((TryMakeUnitValid property.value).1 = false) →
      property.unit = PropertyUnit.TRANSFORM →
      (resolveAllUnits element (TryMakeUnitValid property.value).2.getTransform).1 = false →
      a.AddKey time property element tween = (false, a)) ∧
    (∀ (a : ElementAnimation) (time : ℚ) (property : Property) (element : Element)
      (tween : Tween), ¬ (property.unit ≠ a.property_unit ∨ a.valid = false) →
      ¬ ((TryMakeUnitValid property.value).1 = false) →
      property.unit = PropertyUnit.TRANSFORM →
      ¬ ((resolveAllUnits element (TryMakeUnitValid property.value).2.getTransform).1 = false) →
      (PrepareTransforms (a.keys ++ [(⟨time, Variant.TRANSFORMREF (resolveAllUnits element (TryMakeUnitValid property.value).2.getTransform).2, tween⟩ : AnimationKey)]) element (((a.keys ++ [(⟨time, Variant.TRANSFORMREF (resolveAllUnits element (TryMakeUnitValid property.value).2.getTransform).2, tween⟩ : AnimationKey)]).length : ℤ) - 1)).1 = false →
      a.AddKey time property element tween =
        (false, { a with keys := (PrepareTransforms (a.keys ++ [(⟨time, Variant.TRANSFORMREF (resolveAllUnits element (TryMakeUnitValid property.value).2.getTransform).2, tween⟩ : AnimationKey)]) element (((a.keys ++ [(⟨time, Variant.TRANSFORMREF (resolveAllUnits element (TryMakeUnitValid property.value).2.getTransform).2, tween⟩ : AnimationKey)]).length : ℤ) - 1)).2.dropLast }) ∧
      (a.AddKey time property element tween).2.keys.length = a.keys.length) := by
  refine ⟨fun a t p e tw h => AddKey_reject a t p e tw h,
    fun a t p e tw h1 h2 => AddKey_coerce_fail a t p e tw h1 h2,
    fun a t p e tw h1 h2 h3 h4 => AddKey_transform_resolveFail a t p e tw h1 h2 h3 h4,
    fun a t p e tw h1 h2 h3 h4 h5 => ?_⟩
  have h := AddKey_transform_prepared a t p e tw h1 h2 h3 h4
  rw [h]
  simp only [if_pos h5]
  constructor
  · trivial
  · have hlen := PrepareTransforms_length
      (a.keys ++ [(⟨t, Variant.TRANSFORMREF (resolveAllUnits e (TryMakeUnitValid p.value).2.getTransform).2, tw⟩ : AnimationKey)])
      e (((a.keys ++ [(⟨t, Variant.TRANSFORMREF (resolveAllUnits e (TryMakeUnitValid p.value).2.getTransform).2, tw⟩ : AnimationKey)]).length : ℤ) - 1)
    simp only [List.length_append, List.length_singleton] at hlen
    simp only [List.length_dropLast, List.length_append, List.length_singleton, hlen]
    omega

/-- Witness for C2 at concrete inputs: a unit mismatch leaves the rollback
    timeline untouched, and the failing reconciliation add restores the key
    count. -/
theorem claim_C2_witness :
    rollbackState.AddKey 1 { value := .FLOAT 3, unit := .NUMBER, specificity := 10 }
      rollbackElem defaultTween = (false, rollbackState) ∧
    (rollbackState.AddKey 1 rollbackProp rollbackElem defaultTween).2.keys.length
      = rollbackState.keys.length :=
  ⟨claim_C2.1 rollbackState 1 { value := .FLOAT 3, unit := .NUMBER, specificity := 10 }
      rollbackElem defaultTween (Or.inl (by decide)),
   (claim_C2.2.2.2 rollbackState 1 rollbackProp rollbackElem defaultTween
      (by decide) (by decide) (by decide) (by decide)
      (by show (PrepareTransforms rollbackKeys2 rollbackElem
            ((rollbackKeys2.length : ℤ) - 1)).1 = false
          rw [rollback_prep])).2⟩

end RollbackScenario

section BracketSelection

/-- When the scan finds an index, that index is in bounds, its key's time is
    at least t, and every earlier key's time is below t. -/
theorem findFirstGE_some_spec (t : ℚ) :
    ∀ (keys : List AnimationKey) (i : ℕ), findFirstGE t keys = some i →
      i < keys.length ∧ t ≤ (keys.getD i defaultKey).time ∧
      ∀ j, j < i → (keys.getD j defaultKey).time < t := by
  intro keys
  induction keys with
  | nil => intro i hi; simp [findFirstGE] at hi
  | cons k ks ih =>
    intro i hi
    simp only [findFirstGE] at hi
    by_cases hk : t ≤ k.time
    · rw [if_pos hk] at hi
      cases hi
      exact ⟨by simp, by simpa using hk, fun j hj => absurd hj (Nat.not_lt_zero j)⟩
    · rw [if_neg hk] at hi
      cases hf : findFirstGE t ks with
      | none => rw [hf] at hi; cases hi
      | some m =>
        rw [hf] at hi
        cases hi
        obtain ⟨hm1, hm2, hm3⟩ := ih m hf
        refine ⟨by simpa using hm1, by simpa using hm2, ?_⟩
        intro j hj
        cases j with
        | zero => simpa using lt_of_not_le hk
        | succ j' =>
          rw [List.getD_cons_succ]
          exact hm3 j' (Nat.lt_of_succ_lt_succ hj)

/-- When the scan finds nothing, every key's time is below t. -/
theorem findFirstGE_none_spec (t : ℚ) :
    ∀ (keys : List AnimationKey), findFirstGE t keys = none →
      ∀ j, j < keys.length → (keys.getD j defaultKey).time < t := by
  intro keys
  induction keys with
  | nil => intro _ j hj; simp at hj
  | cons k ks ih =>
    intro hn j hj
    simp only [findFirstGE] at hn
    by_cases hk : t ≤ k.time
    · rw [if_pos hk] at hn; cases hn
    · rw [if_neg hk] at hn
      cases hf : findFirstGE t ks with
      | some m => rw [hf] at hn; simp at hn
      | none =>
        cases j with
        | zero => simpa using lt_of_not_le hk
        | succ j' =>
          rw [List.getD_cons_succ]
          exact ih hf j' (by simpa using hj)

/-- C4: on every non-empty key list with non-decreasing times and every local
    playback time t, the upper bracket key1 is the first key in order whose
    time is at least t (all earlier keys are strictly below t, and key1's time
    is at least t whenever any key qualifies), or the last key when none
    qualifies; the lower bracket key0 is the preceding key, or key1 itself at
    index 0; the raw blend factor is (t - t0)/(t1 - t0), treated as 0 when
    t1 - t0 is at most 1e-3 and clamped to the range 0..1; and the active
    update applies the upper bracket key's tween to this raw factor before
    passing it to the interpolator. -/
theorem claim_C4 (keys : List AnimationKey) (t : ℚ) (hne : keys ≠ [])
    (_hsorted : List.Chain' (fun k0 k1 => k0.time ≤ k1.time) keys) :
    ((findBracketKeys keys t).2 < keys.length) ∧
    (∀ j, j < (findBracketKeys keys t).2 → (keys.getD j defaultKey).time < t) ∧
    ((∃ j, j < keys.length ∧ t ≤ (keys.getD j defaultKey).time) →
      t ≤ (keys.getD (findBracketKeys keys t).2 defaultKey).time) ∧
    ((∀ j, j < keys.length → (keys.getD j defaultKey).time < t) →
      (findBracketKeys keys t).2 = keys.length - 1) ∧
    ((findBracketKeys keys t).1 =
      if (findBracketKeys keys t).2 = 0 then 0 else (findBracketKeys keys t).2 - 1) ∧
    (∀ t0 t1 : ℚ,
      (t1 - t0 ≤ 1/1000 → computeRawAlpha t0 t1 t = Math.Clamp 0 0 1) ∧
      (t1 - t0 > 1/1000 → computeRawAlpha t0 t1 t = Math.Clamp ((t - t0)/(t1 - t0)) 0 1) ∧
      0 ≤ computeRawAlpha t0 t1 t ∧ computeRawAlpha t0 t1 t ≤ 1) ∧
    (∀ (a : ElementAnimation) (world_time : ℚ),
      ¬ (a.animation_complete = true ∨ a.valid = false ∨
         world_time - a.last_update_world_time ≤ 0) →
      (a.UpdateAndGetProperty world_time).1.value =
        (InterpolateValues
          ((advanceIteration (timeAdvanced a world_time)).keys.getD
            (findBracketKeys (advanceIteration (timeAdvanced a world_time)).keys
              (localTime (advanceIteration (timeAdvanced a world_time)))).1 defaultKey).value
          ((advanceIteration (timeAdvanced a world_time)).keys.getD
            (findBracketKeys (advanceIteration (timeAdvanced a world_time)).keys
              (localTime (advanceIteration (timeAdvanced a world_time)))).2 defaultKey).value
          (((advanceIteration (timeAdvanced a world_time)).keys.getD
            (findBracketKeys (advanceIteration (timeAdvanced a world_time)).keys
              (localTime (advanceIteration (timeAdvanced a world_time)))).2 defaultKey).tween
            (computeRawAlpha
              ((advanceIteration (timeAdvanced a world_time)).keys.getD
                (findBracketKeys (advanceIteration (timeAdvanced a world_time)).keys
                  (localTime (advanceIteration (timeAdvanced a world_time)))).1 defaultKey).time
              ((advanceIteration (timeAdvanced a world_time)).keys.getD
                (findBracketKeys (advanceIteration (timeAdvanced a world_time)).keys
                  (localTime (advanceIteration (timeAdvanced a world_time)))).2 defaultKey).time
              (localTime (advanceIteration (timeAdvanced a world_time)))))).1) := by
  have hpos : 0 < keys.length := List.length_pos.mpr hne
  have hbounds := findBracketKeys_bounds keys t hne
  have hclamp : ∀ v : ℚ, 0 ≤ Math.Clamp v 0 1 ∧ Math.Clamp v 0 1 ≤ 1 := by
    intro v
    simp only [Math.Clamp]
    split
    · norm_num
    · split
      · norm_num
      · rename_i h1 h2
        push_neg at h1 h2
        exact ⟨h1, h2⟩
  refine ⟨hbounds.2, ?_, ?_, ?_, ?_, ?_, ?_⟩
  · intro j hj
    simp only [findBracketKeys] at hj
    cases hf : findFirstGE t keys with
    | none =>
      rw [hf] at hj
      have hj' : j < keys.length - 1 := hj
      exact findFirstGE_none_spec t keys hf j (by omega)
    | some i =>
      rw [hf] at hj
      have hj' : j < i := hj
      exact (findFirstGE_some_spec t keys i hf).2.2 j hj' 
  · rintro ⟨j, hj, hjt⟩
    simp only [findBracketKeys]
    cases hf : findFirstGE t keys with
    | none => exact absurd hjt (not_le.mpr (findFirstGE_none_spec t keys hf j hj))
    | some i =>
      simp only [hf]
      exact (findFirstGE_some_spec t keys i hf).2.1
  · intro hall
    simp only [findBracketKeys]
    cases hf : findFirstGE t keys with
    | none => simp [hf]
    | some i =>
      obtain ⟨hi1, hi2, _⟩ := findFirstGE_some_spec t keys i hf
      exact absurd hi2 (not_le.mpr (hall i hi1))
  · rfl
  · intro t0 t1
    exact ⟨fun hle => by simp only [computeRawAlpha, if_neg (not_lt.mpr hle)],
           fun hgt => by simp only [computeRawAlpha, if_pos hgt],
           (hclamp _).1, (hclamp _).2⟩
  · intro a wt hg
    rw [Update_active _ _ hg]
    simp only [evalKeys]

/-- Witness for C4 at the timing keys and local time 1/2: the upper bracket is
    in bounds and the raw blend factor lies in the range 0..1. -/
theorem claim_C4_witness :
    (findBracketKeys timingKeys (1/2)).2 < timingKeys.length ∧
    (0 : ℚ) ≤ computeRawAlpha 0 1 (1/2) ∧ computeRawAlpha 0 1 (1/2) ≤ 1 :=
  ⟨(claim_C4 timingKeys (1/2) (by simp [timingKeys])
      (by norm_num [timingKeys, List.chain'_cons, List.chain'_singleton])).1,
   ((claim_C4 timingKeys (1/2) (by simp [timingKeys])
      (by norm_num [timingKeys, List.chain'_cons, List.chain'_singleton])).2.2.2.2.2.1 0 1).2.2.1,
   ((claim_C4 timingKeys (1/2) (by simp [timingKeys])
      (by norm_num [timingKeys, List.chain'_cons, List.chain'_singleton])).2.2.2.2.2.1 0 1).2.2.2⟩

end BracketSelection

section LoopBound

/-- The reconciliation loop's pass counter never exceeds the iteration bound
    (when it starts at or below it). -/
theorem prepareTransformsLoop_count_le (e : Element) (maxIterations : ℤ) :
    ∀ (keys : List AnimationKey) (i : ℕ) (count : ℤ), count ≤ maxIterations →
      (prepareTransformsLoop e maxIterations keys i count).2.2 ≤ maxIterations := by
  intro keys i count hc
  rw [prepareTransformsLoop]
  by_cases h : i < keys.length ∧ count < maxIterations
  · rw [dif_pos h]
    simp only []
    split
    · exact hc
    · exact prepareTransformsLoop_count_le e maxIterations _ _ (count + 1) (by omega)
  · rw [dif_neg h]
    exact hc
termination_by _ _ count => (maxIterations - count).toNat
decreasing_by omega

/-- When the reconciliation loop ends with its counter at or above the bound,
    it reports failure. -/
theorem prepareTransformsLoop_exhausted (e : Element) (maxIterations : ℤ) :
    ∀ (keys : List AnimationKey) (i : ℕ) (count : ℤ),
      maxIterations ≤ (prepareTransformsLoop e maxIterations keys i count).2.2 →
      (prepareTransformsLoop e maxIterations keys i count).1 = false := by
  intro keys i count hex
  rw [prepareTransformsLoop] at hex ⊢
  by_cases h : i < keys.length ∧ count < maxIterations
  · rw [dif_pos h] at hex ⊢
    simp only [] at hex ⊢
    split at hex
    · rename_i hInv
      simp only [if_pos hInv]
    · rename_i hInv
      simp only [if_neg hInv] at hex ⊢
      exact prepareTransformsLoop_exhausted e maxIterations _ _ (count + 1) hex
  · rw [dif_neg h] at hex ⊢
    simp only [] at hex ⊢
    simp only [decide_eq_false_iff_not, not_lt]
    omega
termination_by _ _ count => (maxIterations - count).toNat
decreasing_by omega

/-- C7: the reconciliation walk always terminates within a bound proportional
    to the key count — the pass counter, started at or below 3 times the
    number of keys, never exceeds that bound; if the walk ends with the bound
    exhausted it reports failure; PrepareTransforms is exactly this loop
    started at the clamped index with counter -1 and bound 3 times the key
    count; and a PrepareTransforms failure makes the triggering AddKey call
    fail. -/
theorem claim_C7 :
    (∀ (e : Element) (keys : List AnimationKey) (i : ℕ) (count : ℤ),
      count ≤ 3 * keys.length →
      (prepareTransformsLoop e (3 * keys.length) keys i count).2.2 ≤ 3 * keys.length) ∧
    (∀ (e : Element) (keys : List AnimationKey) (i : ℕ) (count : ℤ),
      3 * (keys.length : ℤ) ≤ (prepareTransformsLoop e (3 * keys.length) keys i count).2.2 →
      (prepareTransformsLoop e (3 * keys.length) keys i count).1 = false) ∧
    (∀ (keys : List AnimationKey) (e : Element) (startIndex : ℤ),
      PrepareTransforms keys e startIndex =
        ((prepareTransformsLoop e (3 * keys.length) keys
            (if startIndex < 1 then 1 else startIndex.toNat) (-1)).1,
         (prepareTransformsLoop e (3 * keys.length) keys
            (if startIndex < 1 then 1 else startIndex.toNat) (-1)).2.1)) ∧
    (∀ (a : ElementAnimation) (time : ℚ) (property : Property) (element : Element)
      (tween : Tween), ¬ (property.unit ≠ a.property_unit ∨ a.valid = false) →
      ¬ ((TryMakeUnitValid property.value).1 = false) →
      property.unit = PropertyUnit.TRANSFORM →
      ¬ ((resolveAllUnits element (TryMakeUnitValid property.value).2.getTransform).1 = false) →
      (PrepareTransforms (a.keys ++ [(⟨time, Variant.TRANSFORMREF (resolveAllUnits element (TryMakeUnitValid property.value).2.getTransform).2, tween⟩ : AnimationKey)]) element (((a.keys ++ [(⟨time, Variant.TRANSFORMREF (resolveAllUnits element (TryMakeUnitValid property.value).2.getTransform).2, tween⟩ : AnimationKey)]).length : ℤ) - 1)).1 = false →
      (a.AddKey time property element tween).1 = false) := by
  refine ⟨fun e keys i c hc => prepareTransformsLoop_count_le e _ keys i c hc,
    fun e keys i c hex => prepareTransformsLoop_exhausted e _ keys i c hex,
    fun keys e s => rfl, ?_⟩
  intro a t p e tw h1 h2 h3 h4 h5
  rw [AddKey_transform_prepared a t p e tw h1 h2 h3 h4]
  simp only [if_pos h5]

/-- Witness for C7 at concrete inputs: the rollback keys stay within the
    bound; a loop entered with its counter already at the bound reports
    failure; and the failing rollback AddKey call indeed fails. -/
theorem claim_C7_witness :
    (prepareTransformsLoop rollbackElem (3 * rollbackKeys2.length) rollbackKeys2 1 (-1)).2.2
      ≤ 3 * rollbackKeys2.length ∧
    (prepareTransformsLoop rollbackElem (3 * rollbackKeys2.length) rollbackKeys2 1 6).1 = false ∧
    (rollbackState.AddKey 1 rollbackProp rollbackElem defaultTween).1 = false :=
  ⟨claim_C7.1 rollbackElem rollbackKeys2 1 (-1) (by decide),
   claim_C7.2.1 rollbackElem rollbackKeys2 1 6 (by
      rw [prepareTransformsLoop]
      norm_num [rollbackKeys2]),
   claim_C7.2.2.2 rollbackState 1 rollbackProp rollbackElem defaultTween
      (by decide) (by decide) (by decide) (by decide)
      (by show (PrepareTransforms rollbackKeys2 rollbackElem
            ((rollbackKeys2.length : ℤ) - 1)).1 = false
          rw [rollback_prep])⟩

end LoopBound

section Reconciliation

/-- Setting a primitive to its identity keeps its kind. -/
theorem SetIdentitySpec_kind (p : Primitive) : p.SetIdentitySpec.kind = p.kind := rfl

/-- A successful generic conversion yields two primitives of the same kind. -/
theorem tryConvert_kind_eq (p0 p1 q0 q1 : Primitive)
    (h : tryConvertToMatchingGenericType p0 p1 = some (q0, q1)) :
    q0.kind = q1.kind := by
  simp only [tryConvertToMatchingGenericType] at h
  split at h
  · rename_i hg
    cases h
    exact hg
  · cases h

/-- What a successful inner scan tells us: the skipped prefix together with
    some matched element and the rest reassemble the big list, the converted
    pair share a kind, and the reported index is the start index plus the
    number of skipped elements. -/
theorem findMatchInBig_spec (s : Primitive) :
    ∀ (big : List Primitive) (i : ℕ) (pre : List Primitive) (s' b' : Primitive)
      (rest : List Primitive) (j : ℕ) (cb : Bool),
      findMatchInBig s big i = some (pre, s', b', rest, j, cb) →
      (∃ b, big = pre ++ b :: rest) ∧ s'.kind = b'.kind ∧ j = i + pre.length := by
  intro big
  induction big with
  | nil => intro i pre s' b' rest j cb h; simp [findMatchInBig] at h
  | cons b bs ih =>
    intro i pre s' b' rest j cb h
    simp only [findMatchInBig] at h
    by_cases hk : s.kind = b.kind
    · rw [if_pos hk] at h
      cases h
      exact ⟨⟨b, rfl⟩, hk, by simp⟩
    · rw [if_neg hk] at h
      cases hc : tryConvertToMatchingGenericType s b with
      | some q =>
        rw [hc] at h
        cases h
        exact ⟨⟨b, rfl⟩, tryConvert_kind_eq s b _ _ (by rw [hc]), by simp⟩
      | none =>
        rw [hc] at h
        cases hf : findMatchInBig s bs (i + 1) with
        | none => rw [hf] at h; cases h
        | some r =>
          rw [hf] at h
          cases h
          obtain ⟨⟨bm, hsplit⟩, hkind, hj⟩ :=
            ih (i + 1) r.1 r.2.1 r.2.2.1 r.2.2.2.1 r.2.2.2.2.1 r.2.2.2.2.2 (by rw [hf])
          refine ⟨⟨bm, by rw [List.cons_append, ← hsplit]⟩, hkind, ?_⟩
          simp only [List.length_cons]
          rw [hj]
          omega

/-- The inner scan succeeds whenever some element of the big list matches the
    small primitive's kind exactly. -/
theorem findMatchInBig_isSome (s : Primitive) :
    ∀ (big : List Primitive) (i : ℕ) (u : List Primitive) (v : Primitive)
      (w : List Primitive), big = u ++ v :: w → s.kind = v.kind →
      (findMatchInBig s big i).isSome = true := by
  intro big
  induction big with
  | nil =>
    intro i u v w hsplit
    exact absurd hsplit (by simp)
  | cons b bs ih =>
    intro i u v w hsplit hk
    simp only [findMatchInBig]
    by_cases hkb : s.kind = b.kind
    · rw [if_pos hkb]
      rfl
    · rw [if_neg hkb]
      cases hc : tryConvertToMatchingGenericType s b with
      | some q => simp
      | none =>
        cases u with
        | nil =>
          simp only [List.nil_append, List.cons.injEq] at hsplit
          exact absurd (hk.trans (congrArg Primitive.kind hsplit.1.symm)) hkb
        | cons u0 u' =>
          simp only [List.cons_append, List.cons.injEq] at hsplit
          have := ih (i + 1) u' v w hsplit.2 hk
          cases hf : findMatchInBig s bs (i + 1) with
          | none => rw [hf] at this; simp at this
          | some r => simp

/-- Greedy alignment succeeds whenever the small list's kinds embed into the
    big list's kinds as a subsequence (the extra conversion matches can only
    move a match earlier, never prevent one). -/
theorem greedyAlign_success (small : List Primitive) :
    ∀ (big : List Primitive) (i : ℕ),
      List.Sublist (small.map Primitive.kind) (big.map Primitive.kind) →
      (greedyAlign small big i).1 = true := by
  induction small with
  | nil => intro big i _; rfl
  | cons s ss ih =>
    intro big
    induction big with
    | nil =>
      intro i hsub
      simp at hsub
    | cons b bs ihb =>
      intro i hsub
      have hsub' : List.Sublist (s.kind :: ss.map Primitive.kind)
          (b.kind :: bs.map Primitive.kind) := by
        simpa using hsub
      by_cases hkb : s.kind = b.kind
      · have hss : List.Sublist (ss.map Primitive.kind) (bs.map Primitive.kind) := by
          rcases List.cons_sublist_cons'.mp hsub' with hA | hB
          · exact List.sublist_of_cons_sublist hA
          · exact hB.2
        simp only [greedyAlign, findMatchInBig, if_pos hkb]
        simpa using ih bs (i + 1) hss
      · have hA : List.Sublist (s.kind :: ss.map Primitive.kind) (bs.map Primitive.kind) := by
          rcases List.cons_sublist_cons'.mp hsub' with hA | hB
          · exact hA
          · exact absurd hB.1 hkb
        cases hc : tryConvertToMatchingGenericType s b with
        | some q =>
          simp only [greedyAlign, findMatchInBig, if_neg hkb, hc]
          simpa using ih bs (i + 1) (List.sublist_of_cons_sublist hA)
        | none =>
          have hbs := ihb (i + 1) (by simpa using hA)
          cases hf : findMatchInBig s bs (i + 1) with
          | none =>
            exfalso
            simp only [greedyAlign, hf] at hbs
            simp at hbs
          | some r =>
            simp only [greedyAlign, hf] at hbs
            simp only [greedyAlign, findMatchInBig, if_neg hkb, hc, hf]
            simpa using hbs

/-- With no matched indices left, the insertion loop replaces every remaining
    big primitive by its identity. -/
theorem insertIdentities_nil_idxs :
    ∀ (big : List Primitive) (cur : ℕ) (smalls : List Primitive),
      insertIdentities big cur [] smalls = big.map Primitive.SetIdentitySpec := by
  intro big
  induction big with
  | nil => intro cur smalls; rfl
  | cons b bs ih =>
    intro cur smalls
    simp only [insertIdentities, List.map_cons]
    rw [ih]

/-- Walking the skipped prefix: the insertion loop emits identities for the
    skipped big primitives, places the aligned small primitive at the matched
    index, and continues past it. -/
theorem insertIdentities_skip (pre : List Primitive) :
    ∀ (cur : ℕ) (rest : List Primitive) (idxs : List ℕ) (smalls : List Primitive)
      (b' s1 : Primitive) (j : ℕ), j = cur + pre.length →
      insertIdentities (pre ++ b' :: rest) cur (j :: idxs) (s1 :: smalls)
        = pre.map Primitive.SetIdentitySpec ++
          s1 :: insertIdentities rest (j + 1) idxs smalls := by
  induction pre with
  | nil =>
    intro cur rest idxs smalls b' s1 j hj
    have hj' : j = cur := by simpa using hj
    subst hj'
    simp [insertIdentities]
  | cons p pre' ih =>
    intro cur rest idxs smalls b' s1 j hj
    have hne : ¬ (cur = j) := by
      simp only [List.length_cons] at hj
      omega
    have hj' : j = (cur + 1) + pre'.length := by
      simp only [List.length_cons] at hj
      omega
    have hstep : insertIdentities ((p :: pre') ++ b' :: rest) cur (j :: idxs) (s1 :: smalls)
        = if cur = j then s1 :: insertIdentities (pre' ++ b' :: rest) (cur + 1) idxs smalls
          else p.SetIdentitySpec ::
            insertIdentities (pre' ++ b' :: rest) (cur + 1) (j :: idxs) (s1 :: smalls) := rfl
    rw [hstep, if_neg hne, ih (cur + 1) rest idxs smalls b' s1 j hj', List.map_cons,
      List.cons_append]

/-- What a successful greedy alignment guarantees: the aligned small list has
    the small list's length, the big list keeps its length, and after the
    identity insertion the grown small list matches the big list's kinds
    position by position, every element being either the identity of the big
    primitive at that position or one of the aligned small primitives. -/
theorem greedyAlign_spec :
    ∀ (small big : List Primitive) (i : ℕ) (s' b' : List Primitive) (idxs : List ℕ)
      (cb : Bool), greedyAlign small big i = (true, s', b', idxs, cb) →
      s'.length = small.length ∧ b'.length = big.length ∧
      (insertIdentities b' i idxs s').map Primitive.kind = b'.map Primitive.kind ∧
      ∀ x, x ∈ insertIdentities b' i idxs s' →
        (∃ bb, bb ∈ b' ∧ x = bb.SetIdentitySpec) ∨ x ∈ s' := by
  intro small
  induction small with
  | nil =>
    intro big i s' b' idxs cb h
    simp only [greedyAlign, Prod.mk.injEq] at h
    obtain ⟨-, h2, h3, h4, -⟩ := h
    subst h2
    subst h3
    subst h4
    rw [insertIdentities_nil_idxs]
    refine ⟨rfl, rfl, by rw [List.map_map]; rfl, ?_⟩
    intro x hx
    rw [List.mem_map] at hx
    obtain ⟨bb, hbb, hbx⟩ := hx
    exact Or.inl ⟨bb, hbb, hbx.symm⟩
  | cons s ss ih =>
    intro big i s' b' idxs cb h
    cases hf : findMatchInBig s big i with
    | none =>
      simp only [greedyAlign, hf, Prod.mk.injEq] at h
      cases h.1
    | some m =>
      simp only [greedyAlign, hf, Prod.mk.injEq] at h
      obtain ⟨hok, hs', hb', hidxs, -⟩ := h
      obtain ⟨⟨bm, hsplit⟩, hkind, hj⟩ :=
        findMatchInBig_spec s big i m.1 m.2.1 m.2.2.1 m.2.2.2.1 m.2.2.2.2.1 m.2.2.2.2.2
          (by rw [hf])
      have hrec : greedyAlign ss m.2.2.2.1 (m.2.2.2.2.1 + 1) =
          (true, (greedyAlign ss m.2.2.2.1 (m.2.2.2.2.1 + 1)).2.1,
           (greedyAlign ss m.2.2.2.1 (m.2.2.2.2.1 + 1)).2.2.1,
           (greedyAlign ss m.2.2.2.1 (m.2.2.2.2.1 + 1)).2.2.2.1,
           (greedyAlign ss m.2.2.2.1 (m.2.2.2.2.1 + 1)).2.2.2.2) := by
        rw [← hok]
      obtain ⟨ihl, ihbl, ihmap, ihmem⟩ := ih m.2.2.2.1 (m.2.2.2.2.1 + 1) _ _ _ _ hrec
      subst hs'
      subst hb'
      subst hidxs
      have hskip := insertIdentities_skip m.1 i
        (greedyAlign ss m.2.2.2.1 (m.2.2.2.2.1 + 1)).2.2.1
        (greedyAlign ss m.2.2.2.1 (m.2.2.2.2.1 + 1)).2.2.2.1
        (greedyAlign ss m.2.2.2.1 (m.2.2.2.2.1 + 1)).2.1 m.2.2.1 m.2.1 m.2.2.2.2.1 hj
      rw [hskip]
      refine ⟨?_, ?_, ?_, ?_⟩
      · simp only [List.length_cons, ihl]
      · rw [hsplit]
        simp only [List.length_append, List.length_cons, ihbl]
      · simp only [List.map_append, List.map_cons, List.map_map]
        rw [ihmap, hkind]
        rfl
      · intro x hx
        rw [List.mem_append] at hx
        rcases hx with hx | hx
        · rw [List.mem_map] at hx
          obtain ⟨bb, hbb, hbx⟩ := hx
          exact Or.inl ⟨bb, by simp [hbb], hbx.symm⟩
        · rw [List.mem_cons] at hx
          rcases hx with hx | hx
          · exact Or.inr (by simp [hx])
          · rcases ihmem x hx with ⟨bb, hbb, hbx⟩ | hmem
            · exact Or.inl ⟨bb, by simp [hbb], hbx⟩
            · exact Or.inr (by simp [hmem])

/-- C6: reconciling the primitive sequences [Scale, Rotate] and [Scale]
    produces two length-2 sequences with pairwise matching kinds, the identity
    Rotate inserted into the shorter one; and in general, whenever the shorter
    sequence's kinds embed into the longer sequence's kinds in strictly
    increasing position order (a subsequence), the pair reconciles without the
    decomposition fallback: both results have the longer sequence's length and
    pairwise equal kinds, and every element of the grown shorter sequence is
    either the identity instance of the longer sequence's primitive at that
    position or one of the aligned (possibly widened) original primitives. -/
theorem claim_C6 :
    (PrepareTransformPair [⟨.Scale, [2]⟩, ⟨.Rotate, [90]⟩] [⟨.Scale, [3]⟩] plainElement
      = (.ChangedT1, [⟨.Scale, [2]⟩, ⟨.Rotate, [90]⟩], [⟨.Scale, [3]⟩, ⟨.Rotate, [0]⟩])) ∧
    (∀ (t0 t1 : List Primitive) (e : Element), t0.length < t1.length →
      List.Sublist (t0.map Primitive.kind) (t1.map Primitive.kind) →
      ((PrepareTransformPair t0 t1 e).1 = .ChangedT0 ∨
       (PrepareTransformPair t0 t1 e).1 = .ChangedT0andT1) ∧
      (PrepareTransformPair t0 t1 e).2.1.length = t1.length ∧
      (PrepareTransformPair t0 t1 e).2.2.length = t1.length ∧
      (PrepareTransformPair t0 t1 e).2.1.map Primitive.kind
        = (PrepareTransformPair t0 t1 e).2.2.map Primitive.kind ∧
      ∃ aligned : List Primitive, aligned.length = t0.length ∧
        ∀ x, x ∈ (PrepareTransformPair t0 t1 e).2.1 →
          (∃ bb, bb ∈ (PrepareTransformPair t0 t1 e).2.2 ∧ x = bb.SetIdentitySpec) ∨
          x ∈ aligned) ∧
    (∀ (t0 t1 : List Primitive) (e : Element), t1.length < t0.length →
      List.Sublist (t1.map Primitive.kind) (t0.map Primitive.kind) →
      ((PrepareTransformPair t0 t1 e).1 = .ChangedT1 ∨
       (PrepareTransformPair t0 t1 e).1 = .ChangedT0andT1) ∧
      (PrepareTransformPair t0 t1 e).2.1.length = t0.length ∧
      (PrepareTransformPair t0 t1 e).2.2.length = t0.length ∧
      (PrepareTransformPair t0 t1 e).2.1.map Primitive.kind
        = (PrepareTransformPair t0 t1 e).2.2.map Primitive.kind ∧
      ∃ aligned : List Primitive, aligned.length = t1.length ∧
        ∀ x, x ∈ (PrepareTransformPair t0 t1 e).2.2 →
          (∃ bb, bb ∈ (PrepareTransformPair t0 t1 e).2.1 ∧ x = bb.SetIdentitySpec) ∨
          x ∈ aligned) := by
  refine ⟨by decide, ?_, ?_⟩
  · intro t0 t1 e hlt hsub
    have hne : ¬ (t0.length = t1.length) := Nat.ne_of_lt hlt
    have hsucc : (greedyAlign t0 t1 0).1 = true := greedyAlign_success t0 t1 0 hsub
    obtain ⟨hal, hbl, hmap, hmem⟩ := greedyAlign_spec t0 t1 0 (greedyAlign t0 t1 0).2.1
      (greedyAlign t0 t1 0).2.2.1 (greedyAlign t0 t1 0).2.2.2.1 (greedyAlign t0 t1 0).2.2.2.2
      (by rw [← hsucc])
    have hnewlen : (insertIdentities (greedyAlign t0 t1 0).2.2.1 0
        (greedyAlign t0 t1 0).2.2.2.1 (greedyAlign t0 t1 0).2.1).length = t1.length := by
      have := congrArg List.length hmap
      simpa [hbl] using this
    have hpair : PrepareTransformPair t0 t1 e =
        ((if (greedyAlign t0 t1 0).2.2.2.2 then PrepareTransformResult.ChangedT0andT1
          else PrepareTransformResult.ChangedT0),
         insertIdentities (greedyAlign t0 t1 0).2.2.1 0
           (greedyAlign t0 t1 0).2.2.2.1 (greedyAlign t0 t1 0).2.1,
         (greedyAlign t0 t1 0).2.2.1) := by
      simp only [PrepareTransformPair, if_neg hne, if_pos hlt, hsucc, if_true]
    rw [hpair]
    refine ⟨by split <;> simp, hnewlen, hbl.trans rfl, ?_, ⟨(greedyAlign t0 t1 0).2.1,
      hal, ?_⟩⟩
    · exact hmap
    · intro x hx
      exact hmem x hx
  · intro t0 t1 e hlt hsub
    have hne : ¬ (t0.length = t1.length) := (Nat.ne_of_lt hlt).symm
    have hnlt : ¬ (t0.length < t1.length) := by omega
    have hsucc : (greedyAlign t1 t0 0).1 = true := greedyAlign_success t1 t0 0 hsub
    obtain ⟨hal, hbl, hmap, hmem⟩ := greedyAlign_spec t1 t0 0 (greedyAlign t1 t0 0).2.1
      (greedyAlign t1 t0 0).2.2.1 (greedyAlign t1 t0 0).2.2.2.1 (greedyAlign t1 t0 0).2.2.2.2
      (by rw [← hsucc])
    have hnewlen : (insertIdentities (greedyAlign t1 t0 0).2.2.1 0
        (greedyAlign t1 t0 0).2.2.2.1 (greedyAlign t1 t0 0).2.1).length = t0.length := by
      have := congrArg List.length hmap
      simpa [hbl] using this
    have hpair : PrepareTransformPair t0 t1 e =
        ((if (greedyAlign t1 t0 0).2.2.2.2 then PrepareTransformResult.ChangedT0andT1
          else PrepareTransformResult.ChangedT1),
         (greedyAlign t1 t0 0).2.2.1,
         insertIdentities (greedyAlign t1 t0 0).2.2.1 0
           (greedyAlign t1 t0 0).2.2.2.1 (greedyAlign t1 t0 0).2.1) := by
      simp only [PrepareTransformPair, if_neg hne, if_neg hnlt, hsucc, if_true]
    rw [hpair]
    refine ⟨by split <;> simp, hbl.trans rfl, hnewlen, ?_, ⟨(greedyAlign t1 t0 0).2.1,
      hal, ?_⟩⟩
    · exact hmap.symm
    · intro x hx
      exact hmem x hx

/-- Witness for C6 at concrete inputs: the general alignment applied to
    [Scale] versus [Scale, Rotate] (first shorter) yields matching kinds and
    full length on both sides. -/
theorem claim_C6_witness :
    (PrepareTransformPair [⟨.Scale, [2]⟩] [⟨.Scale, [3]⟩, ⟨.Rotate, [45]⟩] plainElement).2.1.length
      = 2 ∧
    (PrepareTransformPair [⟨.Scale, [2]⟩] [⟨.Scale, [3]⟩, ⟨.Rotate, [45]⟩] plainElement).2.1.map
        Primitive.kind
      = (PrepareTransformPair [⟨.Scale, [2]⟩] [⟨.Scale, [3]⟩, ⟨.Rotate, [45]⟩] plainElement).2.2.map
        Primitive.kind :=
  ⟨(claim_C6.2.1 [⟨.Scale, [2]⟩] [⟨.Scale, [3]⟩, ⟨.Rotate, [45]⟩] plainElement
      (by decide) (by decide)).2.1,
   (claim_C6.2.1 [⟨.Scale, [2]⟩] [⟨.Scale, [3]⟩, ⟨.Rotate, [45]⟩] plainElement
      (by decide) (by decide)).2.2.2.1⟩

end Reconciliation

end RocketCore
